import Mathlib

/-!
Verification development for the detective-agent orchestration core
(`src/detective_agent`): the bounded tool-calling loop (`agent.py`), the
ambient tracer (`observability/tracer.py`, `observability/models.py`), the
file exporter (`observability/exporter.py`) and the tool registry
(`tools/registry.py`), shallowly embedded in Lean.

Modelling conventions:
* Python `Any` values that flow through metadata, span attributes and JSON
  documents are embedded as the inductive `JValue`.
* Python exceptions are embedded as `PyExn` (class name, `str(e)` message,
  `__cause__` chain); fallible code returns `Except PyExn`.
* Wall-clock time is abstracted to a monotone `Nat` counter threaded through
  the tracer state; `uuid4` identifiers are abstracted to a fresh-`Nat`
  counter (`nextId`).  Neither abstraction affects any claim below.
* `async`/`await` is erased: one turn is a single sequential control flow,
  exactly as the source executes it.
-/

/-- A JSON-style value, the embedding of the Python `Any` payloads used in
message metadata, span attributes and exported trace documents. -/
inductive JValue where
  | null : JValue
  | bool : Bool → JValue
  | num : Int → JValue
  | str : String → JValue
  | arr : List JValue → JValue
  | obj : List (String × JValue) → JValue

/-- Python `dict.__setitem__` on an association list: update in place if the
key is present (keeping insertion order), otherwise append. -/
def dictSet (l : List (String × JValue)) (k : String) (v : JValue) :
    List (String × JValue) :=
  match l with
  | [] => [(k, v)]
  | (a, b) :: rest =>
      if a = k then (k, v) :: rest else (a, b) :: dictSet rest k v

/-- Python `dict.get` on an association list. -/
def dictGet (l : List (String × JValue)) (k : String) : Option JValue :=
  match l with
  | [] => none
  | (a, b) :: rest => if a = k then some b else dictGet rest k

/-- Escape a character for JSON string output (quote and backslash). -/
def jEscapeChar (c : Char) : String :=
  if c = '"' then "\\\"" else if c = '\\' then "\\\\" else String.singleton c

/-- Escape a string for JSON output. -/
def jEscape (s : String) : String :=
  String.join (s.toList.map jEscapeChar)

/-- Render a JSON string literal. -/
def jStrLit (s : String) : String := "\"" ++ jEscape s ++ "\""

mutual
/-- Embedding of `json.dumps` on `JValue` documents. -/
def jdumps : JValue → String
  | .null => "null"
  | .bool true => "true"
  | .bool false => "false"
  | .num n => toString n
  | .str s => jStrLit s
  | .arr xs => "[" ++ jdumpsArr xs ++ "]"
  | .obj fs => "\x7b" ++ jdumpsObj fs ++ "\x7d"

/-- Comma-separated rendering of a JSON array body. -/
def jdumpsArr : List JValue → String
  | [] => ""
  | [x] => jdumps x
  | x :: rest => jdumps x ++ ", " ++ jdumpsArr rest

/-- Comma-separated rendering of a JSON object body. -/
def jdumpsObj : List (String × JValue) → String
  | [] => ""
  | [(k, v)] => jStrLit k ++ ": " ++ jdumps v
  | (k, v) :: rest => jStrLit k ++ ": " ++ jdumps v ++ ", " ++ jdumpsObj rest
end

/-- A Python exception: class name, `str(e)` message and `__cause__` chain
(as set by `raise ... from e`). -/
inductive PyExn where
  | mk (ty : String) (msg : String) (cause : Option PyExn)

/-- Exception class name (`type(e).__name__`). -/
def PyExn.ty : PyExn → String
  | .mk t _ _ => t

/-- Exception message (`str(e)`). -/
def PyExn.msg : PyExn → String
  | .mk _ m _ => m

/-- Exception cause (`e.__cause__`). -/
def PyExn.cause : PyExn → Option PyExn
  | .mk _ _ c => c

/-! ## Tracing data model (`observability/models.py`) -/

/-- Status of a span execution (`SpanStatus`). -/
inductive SpanStatus where
  | unset
  | ok
  | error
deriving DecidableEq

/-- The serialized `.value` of a span status. -/
def SpanStatus.value : SpanStatus → String
  | .unset => "unset"
  | .ok => "ok"
  | .error => "error"

/-- Kind of span for categorization (`SpanKind`). -/
inductive SpanKind where
  | internal
  | client
  | server
deriving DecidableEq

/-- The serialized `.value` of a span kind. -/
def SpanKind.value : SpanKind → String
  | .internal => "internal"
  | .client => "client"
  | .server => "server"

/-- A single unit of work within a trace (`Span` in `models.py`).
Identifiers are abstracted to `Nat` (`uuid4` becomes a fresh counter) and
timestamps to the tracer's monotone `Nat` clock. -/
structure Span where
  trace_id : Nat
  span_id : Nat
  parent_span_id : Option Nat
  name : String
  start_time : Nat
  end_time : Option Nat
  kind : SpanKind
  status : SpanStatus
  attributes : List (String × JValue)
  events : List JValue

/-- Span duration in milliseconds (`Span.duration_ms`); `none` until ended. -/
def Span.duration_ms (s : Span) : Option Nat :=
  match s.end_time with
  | none => none
  | some t => some (t - s.start_time)

/-- Mark the span as complete (`Span.end`): sets `end_time` to the given
current clock value and the status. -/
def Span.endAt (s : Span) (t : Nat) (status : SpanStatus) : Span :=
  { s with end_time := some t, status := status }

/-- Set an attribute on the span (`Span.set_attribute`). -/
def Span.set_attribute (s : Span) (k : String) (v : JValue) : Span :=
  { s with attributes := dictSet s.attributes k v }

/-- A collection of spans representing a complete operation
(`Trace` in `models.py`). -/
structure Trace where
  trace_id : Nat
  spans : List Span
  created_at : Nat
  service_name : String
  attributes : List (String × JValue)

/-- Append a span to the trace (`Trace.add_span`). -/
def Trace.add_span (tr : Trace) (sp : Span) : Trace :=
  { tr with spans := tr.spans ++ [sp] }

/-- The root span: first span with no parent (`Trace.root_span`). -/
def Trace.root_span (tr : Trace) : Option Span :=
  tr.spans.find? (fun sp => sp.parent_span_id.isNone)

/-- Total trace duration, read off the root span (`Trace.duration_ms`). -/
def Trace.duration_ms (tr : Trace) : Option Nat :=
  match tr.root_span with
  | none => none
  | some root => root.duration_ms

/-! ## Tracer state (`observability/tracer.py`, single-task view)

The ambient state a single logical task sees: the current trace
(`Tracer._current_trace`), the ambient current span id (the task's value of
the `_current_span` `ContextVar`), a monotone clock standing for
`datetime.now`, and a fresh-id counter standing for `uuid4`.  The
process-wide sharing structure of this state is modelled separately for the
concurrency claim. -/
structure TracerState where
  currentTrace : Option Trace
  currentSpan : Option Nat
  clock : Nat
  nextId : Nat

/-- Initial tracer state: no trace, no ambient span. -/
def TracerState.init : TracerState :=
  { currentTrace := none, currentSpan := none, clock := 0, nextId := 0 }

/-- Read the clock (`datetime.now`) and advance it: time is monotone. -/
def TracerState.now (st : TracerState) : Nat × TracerState :=
  (st.clock, { st with clock := st.clock + 1 })

/-- Begin a new current trace (`Tracer.start_trace`); silently replaces any
trace already current, and does not touch the ambient span variable. -/
def TracerState.start_trace (st : TracerState)
    (attributes : List (String × JValue)) : Trace × TracerState :=
  let (t, st) := st.now
  let tr : Trace :=
    { trace_id := st.nextId, spans := [], created_at := t,
      service_name := "detective-agent", attributes := attributes }
  (tr, { st with currentTrace := some tr, nextId := st.nextId + 1 })

/-- End and return the current trace (`Tracer.end_trace`): detaches the
trace and clears the ambient span variable. -/
def TracerState.end_trace (st : TracerState) : Option Trace × TracerState :=
  (st.currentTrace, { st with currentTrace := none, currentSpan := none })

/-- Apply a function to every span of the current trace (the embedding of a
mutation of a span object registered on the current trace). -/
def TracerState.mapSpans (st : TracerState) (f : Span → Span) : TracerState :=
  match st.currentTrace with
  | none => st
  | some tr => { st with currentTrace := some { tr with spans := tr.spans.map f } }

/-- Mutate the span with the given id: `span.set_attribute(k, v)`. -/
def TracerState.setSpanAttr (st : TracerState) (sid : Nat) (k : String)
    (v : JValue) : TracerState :=
  st.mapSpans (fun sp => if sp.span_id = sid then sp.set_attribute k v else sp)

/-- Mutate the span with the given id: `span.end(status)` at the current
clock. -/
def TracerState.endSpan (st : TracerState) (sid : Nat) (status : SpanStatus) :
    TracerState :=
  let (t, st) := st.now
  st.mapSpans (fun sp => if sp.span_id = sid then sp.endAt t status else sp)

/-- The span freshly created by `Tracer.span` on entry: parent is the
ambient current span, status starts `unset`, `end_time` starts `none`. -/
def mkSpan (st : TracerState) (traceId : Nat) (name : String) (kind : SpanKind)
    (attributes : List (String × JValue)) : Span :=
  { trace_id := traceId, span_id := st.nextId,
    parent_span_id := st.currentSpan, name := name,
    start_time := st.clock, end_time := none,
    kind := kind, status := .unset,
    attributes := attributes, events := [] }

/-- Entry half of the `Tracer.span` context manager: fails fast with a
`RuntimeError` when no trace is active; otherwise creates the span with the
ambient span as parent, registers it on the current trace, installs it as
the new ambient span, and returns its id together with the saved token
(the prior ambient value, for `ContextVar.reset`). -/
def TracerState.openSpan (st : TracerState) (name : String) (kind : SpanKind)
    (attributes : List (String × JValue)) :
    Except PyExn ((Nat × Option Nat) × TracerState) :=
  match st.currentTrace with
  | none =>
      .error (.mk "RuntimeError" "No active trace. Call start_trace() first." none)
  | some tr =>
      let sp := mkSpan st tr.trace_id name kind attributes
      let token := st.currentSpan
      let (_, st') := st.now
      let st'' :=
        { st' with
          currentTrace := some (tr.add_span sp),
          currentSpan := some sp.span_id,
          nextId := st.nextId + 1 }
      .ok ((sp.span_id, token), st'')

/-- Exit half of the `Tracer.span` context manager, normal path: end the
span with status `ok` and restore the ambient span to the saved token. -/
def TracerState.closeSpanOk (st : TracerState) (sid : Nat)
    (token : Option Nat) : TracerState :=
  let st := st.endSpan sid .ok
  { st with currentSpan := token }

/-- Exit half of the `Tracer.span` context manager, exceptional path:
record `error.type`/`error.message`, end the span with status `error`,
restore the ambient span; the exception is then re-raised unchanged by the
caller. -/
def TracerState.closeSpanErr (st : TracerState) (sid : Nat)
    (token : Option Nat) (e : PyExn) : TracerState :=
  let st := st.setSpanAttr sid "error.type" (.str e.ty)
  let st := st.setSpanAttr sid "error.message" (.str e.msg)
  let st := st.endSpan sid .error
  { st with currentSpan := token }

/-! ## Scoped-span client programs

`TProg` is the syntax of code a caller runs inside tracer scopes: it can
open nested scoped spans (`Tracer.span` used as a `with`-block), set
attributes on the ambient current span, raise, and sequence.  `runP` is its
interpreter over `TracerState`, whose `spanOp` case is the faithful
embedding of the `Tracer.span` context manager (lines 58-112 of
`tracer.py`): fail fast without a trace; create the span with the ambient
parent; run the body; end with `ok` on normal exit; on an exception record
`error.type`/`error.message`, end with `error`, re-raise unchanged; always
restore the ambient span to the saved token. -/
inductive TProg where
  | skip : TProg
  | seq : TProg → TProg → TProg
  | spanOp (name : String) (kind : SpanKind)
      (attributes : List (String × JValue)) (body : TProg) : TProg
  | setAttr (key : String) (v : JValue) : TProg
  | raiseE (e : PyExn) : TProg

/-- Set an attribute on the ambient current span (no-op when there is no
registered current span to mutate). -/
def TracerState.setCurSpanAttr (st : TracerState) (k : String) (v : JValue) :
    TracerState :=
  match st.currentSpan with
  | none => st
  | some sid => st.setSpanAttr sid k v

/-- Interpreter for `TProg`: the first component is `some e` when the
program raised `e` (exceptions short-circuit a sequence), and the second is
the tracer state after the run (Python state mutations survive a raise). -/
def runP : TProg → TracerState → Option PyExn × TracerState
  | .skip, st => (none, st)
  | .seq p q, st =>
      match runP p st with
      | (some e, st') => (some e, st')
      | (none, st') => runP q st'
  | .setAttr k v, st => (none, st.setCurSpanAttr k v)
  | .raiseE e, st => (some e, st)
  | .spanOp name kind attrs body, st =>
      match st.openSpan name kind attrs with
      | .error e => (some e, st)
      | .ok ((sid, token), st1) =>
          match runP body st1 with
          | (none, st2) => (none, st2.closeSpanOk sid token)
          | (some e, st2) => (some e, st2.closeSpanErr sid token e)

/-! ## File-based exporter (`observability/exporter.py`)

The filesystem is modelled as an association list from path to the JSON
document written there (`json.dump` followed by `json.load` is the identity
at the document level); directory creation is absorbed into path
construction.  The abstract `Nat` timestamps of traces render through
`toString` where the source formats dates. -/

/-- The exporter's view of the filesystem: path to JSON document, most
recent write first. -/
def ExpState := List (String × JValue)

/-- Serialize a span to its stable document form
(`FileTraceExporter._serialize_span`): an unclosed span serializes with
null `end_time`/`duration_ms` without failing. -/
def FileTraceExporter.serialize_span (sp : Span) : JValue :=
  .obj
    [ ("trace_id", .num sp.trace_id),
      ("span_id", .num sp.span_id),
      ("parent_span_id",
        match sp.parent_span_id with
        | none => .null
        | some p => .num p),
      ("name", .str sp.name),
      ("kind", .str sp.kind.value),
      ("status", .str sp.status.value),
      ("start_time", .num sp.start_time),
      ("end_time",
        match sp.end_time with
        | none => .null
        | some t => .num t),
      ("duration_ms",
        match sp.duration_ms with
        | none => .null
        | some d => .num d),
      ("attributes", .obj sp.attributes),
      ("events", .arr sp.events) ]

/-- Serialize a trace to its stable document form
(`FileTraceExporter._serialize_trace`). -/
def FileTraceExporter.serialize_trace (tr : Trace) : JValue :=
  .obj
    [ ("trace_id", .num tr.trace_id),
      ("service_name", .str tr.service_name),
      ("created_at", .num tr.created_at),
      ("duration_ms",
        match tr.duration_ms with
        | none => .null
        | some d => .num d),
      ("attributes", .obj tr.attributes),
      ("spans", .arr (tr.spans.map FileTraceExporter.serialize_span)) ]

/-- The date-partitioned path `export` writes to:
`output_dir/<date>/trace_<time>_<trace_id prefix>.json`. -/
def FileTraceExporter.tracePath (outputDir : String) (tr : Trace) : String :=
  outputDir ++ "/" ++ toString tr.created_at ++ "/trace_" ++
    toString tr.created_at ++ "_" ++ (toString tr.trace_id).take 8 ++ ".json"

/-- Export a trace to a JSON file (`FileTraceExporter.export`): serialize,
write (overwriting any previous document at the path), return the path. -/
def FileTraceExporter.export (outputDir : String) (fs : ExpState)
    (tr : Trace) : ExpState × String :=
  let path := FileTraceExporter.tracePath outputDir tr
  ((path, FileTraceExporter.serialize_trace tr) :: fs, path)

/-- Load a trace document back from a file (`FileTraceExporter.load_trace`). -/
def FileTraceExporter.load_trace (fs : ExpState) (path : String) :
    Option JValue :=
  match fs with
  | [] => none
  | (p, doc) :: rest =>
      if p = path then some doc else FileTraceExporter.load_trace rest path

/-! ## Tool registry (`tools/registry.py`) -/

/-- Definition of a callable tool (`ToolDefinition`); the async handler is
embedded as a function returning `Except PyExn`. -/
structure ToolDefinition where
  name : String
  description : String
  parameters : JValue
  handler : JValue → Except PyExn JValue

/-- Registry for managing and executing tools (`ToolRegistry`); the `dict`
is an association list in insertion order. -/
structure ToolRegistry where
  tools : List (String × ToolDefinition)

/-- Update-or-append for the registry `dict`. -/
def toolsSet (l : List (String × ToolDefinition)) (k : String)
    (t : ToolDefinition) : List (String × ToolDefinition) :=
  match l with
  | [] => [(k, t)]
  | (a, b) :: rest =>
      if a = k then (k, t) :: rest else (a, b) :: toolsSet rest k t

/-- Lookup in the registry `dict`. -/
def toolsGet (l : List (String × ToolDefinition)) (k : String) :
    Option ToolDefinition :=
  match l with
  | [] => none
  | (a, b) :: rest => if a = k then some b else toolsGet rest k

/-- Register a tool (`ToolRegistry.register`): insert or overwrite by name,
last registration wins. -/
def ToolRegistry.register (r : ToolRegistry) (t : ToolDefinition) :
    ToolRegistry :=
  { tools := toolsSet r.tools t.name t }

/-- Get a tool by name (`ToolRegistry.get`); raises `ToolNotFoundError` if
absent. -/
def ToolRegistry.get (r : ToolRegistry) (name : String) :
    Except PyExn ToolDefinition :=
  match toolsGet r.tools name with
  | none => .error (.mk "ToolNotFoundError" ("Tool not found: " ++ name) none)
  | some t => .ok t

/-- All registered tools in insertion order (`ToolRegistry.get_tools`). -/
def ToolRegistry.get_tools (r : ToolRegistry) : List ToolDefinition :=
  r.tools.map (fun p => p.2)

/-- Execute a tool by name (`ToolRegistry.execute`): look up (raising
`ToolNotFoundError`), invoke the handler, and wrap any handler exception as
`ToolExecutionError` carrying the tool name and the original cause. -/
def ToolRegistry.execute (r : ToolRegistry) (name : String) (args : JValue) :
    Except PyExn JValue :=
  match r.get name with
  | .error e => .error e
  | .ok t =>
      match t.handler args with
      | .ok v => .ok v
      | .error e =>
          .error (.mk "ToolExecutionError"
            ("Tool '" ++ name ++ "' execution failed: " ++ e.msg) (some e))

/-- Export every registered tool's schema for the provider
(`ToolRegistry.format_for_openai`). -/
def ToolRegistry.format_for_openai (r : ToolRegistry) : List JValue :=
  r.tools.map (fun p =>
    .obj
      [ ("type", .str "function"),
        ("function", .obj
          [ ("name", .str p.2.name),
            ("description", .str p.2.description),
            ("parameters", p.2.parameters) ]) ])

/-! ## Conversation data model (`models.py`) -/

/-- Message role (`MessageRole`). -/
inductive Role where
  | user
  | assistant
  | system
  | tool
deriving DecidableEq

/-- One tool-call request's `function` payload: name and the raw JSON
argument string. -/
structure ToolCallFn where
  name : String
  arguments : String

/-- One tool-call request as listed by the provider: call id plus function
payload. -/
structure ToolCall where
  id : String
  function : ToolCallFn

/-- Provider token usage, when reported. -/
structure Usage where
  prompt_tokens : Nat
  completion_tokens : Nat
  total_tokens : Nat

/-- The open metadata map of a message, restricted to the keys the
orchestrator reads and writes: `tool_calls` and `usage` on assistant
replies, `tool_call_id` and `name` on tool-result messages. -/
structure MsgMeta where
  tool_calls : Option (List ToolCall) := none
  usage : Option Usage := none
  tool_call_id : Option String := none
  name : Option String := none

/-- Single message in a conversation (`Message`); the timestamp is omitted
because nothing in the orchestration core reads it. -/
structure Message where
  role : Role
  content : String
  metadata : MsgMeta := {}

/-- The tool-call list of a reply: `response.metadata.get("tool_calls")`
with Python falsiness folding `None` and `[]` together. -/
def getToolCalls (m : Message) : List ToolCall :=
  m.metadata.tool_calls.getD []

/-! ## Orchestrator (`agent.py`)

The agent's collaborators are parameters (`AgentEnv`): the provider is a
pure function of the call index, the assembled message list and the
advertised tool schemas (temperature and max-tokens are configuration
floats nothing here depends on); `json.loads` is a parameter since its
only relevant behaviour is succeeding or raising; the exporter parameter
captures that `FileTraceExporter.export` performs I/O that may raise.  The
mutable world of one turn is `AgentState`: the conversation's message list
(the conversation object itself, reduced to the parts the claims touch),
the tracer, the saved-conversation snapshots of `ConversationStore.save`,
the exporter's filesystem, and the number of provider calls made. -/

/-- The agent's external collaborators and configuration. -/
structure AgentEnv where
  provider : Nat → List Message → Option (List JValue) → Message
  jsonLoads : String → Except PyExn JValue
  registry : ToolRegistry
  exporter : Trace → ExpState → Except PyExn (ExpState × String)
  system_prompt : String
  model : String

/-- The mutable state of one turn. -/
structure AgentState where
  messages : List Message
  tracer : TracerState
  saves : List (List Message)
  fs : ExpState
  calls : Nat

/-- A fresh agent state. -/
def AgentState.init : AgentState :=
  { messages := [], tracer := TracerState.init, saves := [], fs := [],
    calls := 0 }

/-- Lift a tracer-state update to the agent state. -/
def AgentState.onTracer (st : AgentState) (f : TracerState → TracerState) :
    AgentState :=
  { st with tracer := f st.tracer }

/-- `self._tracer.span(...)` entry inside the agent: the `RuntimeError` of
a missing trace propagates. -/
def AgentState.openSpan (st : AgentState) (name : String) (kind : SpanKind)
    (attrs : List (String × JValue)) :
    Except PyExn ((Nat × Option Nat) × AgentState) :=
  match st.tracer.openSpan name kind attrs with
  | .error e => .error e
  | .ok (st', tr') => .ok (st', { st with tracer := tr' })

/-- The fixed iteration cap of the tool-calling loop. -/
def maxIterations : Nat := 10

/-- The fixed sentinel failure message returned on loop exhaustion. -/
def exhaustionMessage : String :=
  "Error: Maximum tool calling iterations reached."

/-- The serialized result string of one tool call (`agent.py` lines
125-134): parse the argument payload, execute through the registry,
JSON-encode structured results and pass other results through `str`; any
exception is caught and encoded as an error object.  The second component
is the caught exception, if any, for the span's `success`/`error`
attributes. -/
def toolResultStr (env : AgentEnv) (tc : ToolCall) :
    String × Option (JValue × PyExn) :=
  match env.jsonLoads tc.function.arguments with
  | .error e => (jdumps (.obj [("error", .str e.msg)]), some (.null, e))
  | .ok args =>
      match env.registry.execute tc.function.name args with
      | .error e => (jdumps (.obj [("error", .str e.msg)]), some (args, e))
      | .ok result =>
          (match result with
           | .obj fs => jdumps (.obj fs)
           | .str s => s
           | v => jdumps v, none)

/-- The tool-role message appended for one tool call (`agent.py` lines
136-142), carrying the originating call id and tool name in metadata. -/
def toolResultMsg (env : AgentEnv) (tc : ToolCall) : Message :=
  { role := .tool, content := (toolResultStr env tc).1,
    metadata := { tool_call_id := some tc.id, name := some tc.function.name } }

/-- Execute one requested tool call (`agent.py` lines 116-142): open the
per-tool span tagged with tool name and call id; inside the span, parse
the arguments and execute, recording `arguments` and `success` (and
`error` on failure) as span attributes -- the inner `except Exception`
means the span body itself never raises; close the span; then append the
tool-result message.  Only a failure to open the span (no active trace)
propagates. -/
def execOneToolCall (env : AgentEnv) (tc : ToolCall) (st : AgentState) :
    Except PyExn Unit × AgentState :=
  match st.openSpan ("tool:" ++ tc.function.name) .internal
      [("tool_name", .str tc.function.name), ("tool_call_id", .str tc.id)] with
  | .error e => (.error e, st)
  | .ok ((sid, token), st) =>
      let st :=
        match toolResultStr env tc with
        | (_, none) =>
            let st :=
              match env.jsonLoads tc.function.arguments with
              | .ok args => st.onTracer (fun t => t.setSpanAttr sid "arguments" args)
              | .error _ => st
            st.onTracer (fun t => t.setSpanAttr sid "success" (.bool true))
        | (_, some (args, e)) =>
            let st :=
              match env.jsonLoads tc.function.arguments with
              | .ok _ => st.onTracer (fun t => t.setSpanAttr sid "arguments" args)
              | .error _ => st
            let st := st.onTracer (fun t => t.setSpanAttr sid "success" (.bool false))
            st.onTracer (fun t => t.setSpanAttr sid "error" (.str e.msg))
      let st := st.onTracer (fun t => t.closeSpanOk sid token)
      (.ok (), { st with messages := st.messages ++ [toolResultMsg env tc] })

/-- Execute each requested tool call in the order the provider listed them
(`agent.py` lines 116-142), appending each result message before starting
the next call. -/
def execToolCalls (env : AgentEnv) (tcs : List ToolCall) (st : AgentState) :
    Except PyExn Unit × AgentState :=
  match tcs with
  | [] => (.ok (), st)
  | tc :: rest =>
      match execOneToolCall env tc st with
      | (.error e, st') => (.error e, st')
      | (.ok _, st') => execToolCalls env rest st'

/-- One provider call inside its `llm_call` span (`agent.py` lines 74-100):
assemble system message plus full history, call the provider, record the
token-usage attributes, close the span. -/
def llmCall (env : AgentEnv) (tools : Option (List JValue)) (iteration : Nat)
    (st : AgentState) : Except PyExn (Message × AgentState) :=
  let messages :=
    Message.mk .system env.system_prompt {} :: st.messages
  match st.openSpan "llm_call" .client
      [("model", .str env.model),
       ("message_count", .num messages.length),
       ("iteration", .num iteration)] with
  | .error e => .error e
  | .ok ((sid, token), st) =>
      let response := env.provider st.calls messages tools
      let st := { st with calls := st.calls + 1 }
      let usage := response.metadata.usage
      let st := st.onTracer (fun t => t.setSpanAttr sid "tokens.prompt"
        (.num ((usage.map (fun u => (u.prompt_tokens : Int))).getD 0)))
      let st := st.onTracer (fun t => t.setSpanAttr sid "tokens.completion"
        (.num ((usage.map (fun u => (u.completion_tokens : Int))).getD 0)))
      let st := st.onTracer (fun t => t.setSpanAttr sid "tokens.total"
        (.num ((usage.map (fun u => (u.total_tokens : Int))).getD 0)))
      let st := st.onTracer (fun t => t.closeSpanOk sid token)
      .ok (response, st)

/-- The tool-calling loop (`agent.py` lines 73-143): `fuel` counts the
iterations left of `range(max_iterations)` and `iteration` the current
index.  Returns `some` final text on a reply without tool calls (after
appending the reply, recording the root-span totals and persisting the
conversation), `none` when the loop exhausts its iterations. -/
def sendLoop (env : AgentEnv) (tools : Option (List JValue)) (rootSid : Nat)
    (fuel iteration : Nat) (st : AgentState) :
    Except PyExn (Option String) × AgentState :=
  match fuel with
  | 0 => (.ok none, st)
  | fuel' + 1 =>
      match llmCall env tools iteration st with
      | .error e => (.error e, st)
      | .ok (response, st) =>
          let tcs := getToolCalls response
          if tcs.isEmpty then
            let st := { st with messages := st.messages ++ [response] }
            let st := st.onTracer (fun t => t.setSpanAttr rootSid
              "total_messages" (.num st.messages.length))
            let st := st.onTracer (fun t => t.setSpanAttr rootSid
              "iterations" (.num (iteration + 1)))
            let st := { st with saves := st.saves ++ [st.messages] }
            (.ok (some response.content), st)
          else
            let st := { st with messages := st.messages ++ [response] }
            match execToolCalls env tcs st with
            | (.error e, st') => (.error e, st')
            | (.ok _, st') => sendLoop env tools rootSid fuel' (iteration + 1) st'

/-- The body of `send_message` inside its try block (`agent.py` lines
60-147): open the root span, append the user message, advertise tools when
any are registered, run the loop; on exhaustion record
`max_iterations_reached`, persist and produce the sentinel.  The root
span's `with`-scope closes `ok` on the return paths and `error` on an
exception, which is re-raised. -/
def sendBody (env : AgentEnv) (content : String) (st : AgentState) :
    Except PyExn String × AgentState :=
  match st.openSpan "send_message"
      .internal [("message_length", .num content.length)] with
  | .error e => (.error e, st)
  | .ok ((rootSid, token), st) =>
      let st := { st with messages :=
        st.messages ++ [Message.mk .user content {}] }
      let tools : Option (List JValue) :=
        if env.registry.get_tools.isEmpty then none
        else some env.registry.format_for_openai
      let st :=
        match tools with
        | none => st
        | some ts => st.onTracer (fun t => t.setSpanAttr rootSid
            "tools_count" (.num ts.length))
      match sendLoop env tools rootSid maxIterations 0 st with
      | (.error e, st) => (.error e, st.onTracer (fun t => t.closeSpanErr rootSid token e))
      | (.ok (some text), st) =>
          (.ok text, st.onTracer (fun t => t.closeSpanOk rootSid token))
      | (.ok none, st) =>
          let st := st.onTracer (fun t => t.setSpanAttr rootSid
            "max_iterations_reached" (.bool true))
          let st := { st with saves := st.saves ++ [st.messages] }
          (.ok exhaustionMessage, st.onTracer (fun t => t.closeSpanOk rootSid token))

/-- Send a user message and get the assistant response
(`DetectiveAgent.send_message`): start a new trace, run the body, and in
the `finally` block end the trace and export it.  Python `finally`
semantics: an exception raised by the export step replaces the body's
outcome, whether that outcome was a return value or an exception;
otherwise the body's outcome stands. -/
def send_message (env : AgentEnv) (content : String) (st : AgentState) :
    Except PyExn String × AgentState :=
  let (_, tracer) := st.tracer.start_trace
    [("user_message", .str (content.take 100))]
  let st := { st with tracer := tracer }
  let (result, st) := sendBody env content st
  let (completed, tracer') := st.tracer.end_trace
  let st := { st with tracer := tracer' }
  match completed with
  | none => (result, st)
  | some tr =>
      match env.exporter tr st.fs with
      | .error e => (.error e, st)
      | .ok (fs', _) => (result, { st with fs := fs' })

/-- Python slice `l[i:]` with a possibly negative start index. -/
def pySliceFrom (l : List Message) (i : Int) : List Message :=
  if i < 0 then l.drop (max 0 ((l.length : Int) + i)).toNat
  else l.drop (min i (l.length : Int)).toNat

/-- Get conversation history (`DetectiveAgent.get_history`): `if limit:`
slices the last `limit` messages, so both `None` and a falsy `0` return
the full list. -/
def get_history (messages : List Message) (limit : Option Int) :
    List Message :=
  match limit with
  | some l => if l ≠ 0 then pySliceFrom messages (-l) else messages
  | none => messages

/-! ## Process-wide sharing structure of the ambient state (`tracer.py`
lines 9-26 and 119-143)

For the concurrency claim the storage layout matters: `_current_span` is a
`ContextVar`, whose value is per logical task, while `_current_trace` is an
ordinary attribute of the `Tracer` object, and `get_tracer` hands every
caller the same module-global singleton.  `ProcState` models a process
running several logical tasks against that layout. -/

/-- A logical task (an asyncio task / thread of one turn). -/
abbrev TaskId := Nat

/-- The `Tracer` object's own storage: `_current_trace` is an instance
attribute. -/
structure GTracer where
  service_name : String
  current_trace : Option Trace

/-- Process-wide storage: the `_global_tracer` module variable shared by
every task, and the per-task values of the `_current_span` `ContextVar`. -/
structure ProcState where
  globalTracer : Option GTracer
  currentSpanVar : TaskId → Option Nat

/-- `get_tracer()`: create the singleton on first use, then always return
the same shared instance, whichever task asks. -/
def ProcState.get_tracer (ps : ProcState) : GTracer × ProcState :=
  match ps.globalTracer with
  | some t => (t, ps)
  | none =>
      let t : GTracer := { service_name := "detective-agent", current_trace := none }
      (t, { ps with globalTracer := some t })

/-- Task `tid` runs `get_tracer().start_trace(attrs)`: the new trace is
stored on the shared singleton. -/
def ProcState.start_trace (ps : ProcState) (_tid : TaskId)
    (attributes : List (String × JValue)) (traceId createdAt : Nat) :
    ProcState :=
  let (t, ps) := ps.get_tracer
  let tr : Trace :=
    { trace_id := traceId, spans := [], created_at := createdAt,
      service_name := t.service_name, attributes := attributes }
  { ps with globalTracer := some { t with current_trace := some tr } }

/-- Task `tid` runs `get_tracer().get_current_trace()`: reads the shared
singleton's attribute, with no dependence on the task. -/
def ProcState.get_current_trace (ps : ProcState) (_tid : TaskId) :
    Option Trace :=
  (ps.get_tracer).1.current_trace

/-- Task `tid` sets the `_current_span` `ContextVar`: only this task's
slot changes. -/
def ProcState.set_current_span (ps : ProcState) (tid : TaskId)
    (v : Option Nat) : ProcState :=
  { ps with currentSpanVar := fun t => if t = tid then v else ps.currentSpanVar t }

/-- Task `tid` reads the `_current_span` `ContextVar`. -/
def ProcState.get_current_span (ps : ProcState) (tid : TaskId) : Option Nat :=
  ps.currentSpanVar tid

/-! ## Basic dictionary lemmas -/

/-- Reading back the key just written. -/
theorem dictGet_dictSet_self (l : List (String × JValue)) (k : String)
    (v : JValue) : dictGet (dictSet l k v) k = some v := by
  induction l with
  | nil => simp [dictSet, dictGet]
  | cons hd tl ih =>
      obtain ⟨a, b⟩ := hd
      by_cases h : a = k
      · simp [dictSet, dictGet, h]
      · simp [dictSet, dictGet, h, ih]

/-- Writing one key leaves every other key's value unchanged. -/
theorem dictGet_dictSet_ne (l : List (String × JValue)) (k k' : String)
    (v : JValue) (h : k' ≠ k) : dictGet (dictSet l k v) k' = dictGet l k' := by
  induction l with
  | nil => simp [dictSet, dictGet, h, Ne.symm h]
  | cons hd tl ih =>
      obtain ⟨a, b⟩ := hd
      by_cases ha : a = k
      · subst ha
        simp [dictSet, dictGet, h, Ne.symm h]
      · simp [dictSet, dictGet, ha, ih]

/-- Field access on a JSON object document. -/
def jGet (j : JValue) (k : String) : Option JValue :=
  match j with
  | .obj l => dictGet l k
  | _ => none

/-! ## C8: export/load round trip -/

/-- C8: for every trace, `export(trace)` followed by `load_trace` on the
returned path yields a document that reproduces the trace's `trace_id`
and, for every span of the trace, that span's name and attributes. -/
theorem export_load_roundtrip (outputDir : String) (fs : ExpState)
    (tr : Trace) :
    FileTraceExporter.load_trace
        (FileTraceExporter.export outputDir fs tr).1
        (FileTraceExporter.export outputDir fs tr).2 =
      some (FileTraceExporter.serialize_trace tr) ∧
    jGet (FileTraceExporter.serialize_trace tr) "trace_id" =
      some (.num tr.trace_id) ∧
    jGet (FileTraceExporter.serialize_trace tr) "spans" =
      some (.arr (tr.spans.map FileTraceExporter.serialize_span)) ∧
    tr.spans.map (fun sp => jGet (FileTraceExporter.serialize_span sp) "name") =
      tr.spans.map (fun sp => some (.str sp.name)) ∧
    tr.spans.map
        (fun sp => jGet (FileTraceExporter.serialize_span sp) "attributes") =
      tr.spans.map (fun sp => some (.obj sp.attributes)) := by
  refine ⟨?_, rfl, rfl, ?_, ?_⟩
  · simp [FileTraceExporter.export, FileTraceExporter.load_trace]
  · exact List.map_congr_left (fun sp _ => rfl)
  · exact List.map_congr_left (fun sp _ => rfl)

/-! ## C10: get_history limit semantics -/

/-- C10: `get_history` with `limit=0` returns the full message list (the
same as no limit), because a zero limit is falsy; a positive limit `n`
returns the last `min n length` messages in order. -/
theorem get_history_limit (messages : List Message) :
    get_history messages (some 0) = messages ∧
    get_history messages none = messages ∧
    get_history messages (some 0) = get_history messages none ∧
    ∀ n : Nat, 0 < n →
      get_history messages (some (n : Int)) =
        messages.drop (messages.length - n) ∧
      (get_history messages (some (n : Int))).length =
        min n messages.length := by
  refine ⟨rfl, rfl, rfl, fun n hn => ?_⟩
  have hne : (n : Int) ≠ 0 := by exact_mod_cast hn.ne'
  have hneg : -(n : Int) < 0 := by omega
  have hdrop : (max 0 ((messages.length : Int) + -(n : Int))).toNat =
      messages.length - n := by omega
  constructor
  · simp only [get_history, pySliceFrom, hne, if_pos, hneg, if_true, hdrop]
    simp [hne, hneg, hdrop]
  · simp only [get_history, pySliceFrom, hne, hneg, hdrop]
    simp [hne, hneg, hdrop]
    omega

/-- Witness for C10 at a concrete conversation of three messages and
limit 2. -/
theorem get_history_limit_witness :
    (0 : Nat) < 2 ∧
    (get_history [Message.mk .user "a" {}, Message.mk .assistant "b" {},
        Message.mk .user "c" {}] (some (2 : Nat)) =
      ([Message.mk .user "a" {}, Message.mk .assistant "b" {},
        Message.mk .user "c" {}] : List Message).drop 1 ∧
      (get_history [Message.mk .user "a" {}, Message.mk .assistant "b" {},
        Message.mk .user "c" {}] (some (2 : Nat))).length = 2) :=
  ⟨by decide,
   (get_history_limit [Message.mk .user "a" {}, Message.mk .assistant "b" {},
      Message.mk .user "c" {}]).2.2.2 2 (by decide)⟩

/-! ## C6: registry error wrapping -/

/-- C6: `ToolRegistry.execute` wraps any handler exception as a
`ToolExecutionError` whose message carries the tool name and whose cause is
the original handler exception; an unregistered name fails with
`ToolNotFoundError`; and every error escaping `execute` is one of those
two, never a raw handler exception. -/
theorem registry_execute_errors (r : ToolRegistry) (name : String)
    (args : JValue) :
    (toolsGet r.tools name = none →
      r.execute name args =
        .error (.mk "ToolNotFoundError" ("Tool not found: " ++ name) none)) ∧
    (∀ t, toolsGet r.tools name = some t → ∀ e, t.handler args = .error e →
      r.execute name args =
        .error (.mk "ToolExecutionError"
          ("Tool '" ++ name ++ "' execution failed: " ++ e.msg) (some e))) ∧
    (∀ e', r.execute name args = .error e' →
      e'.ty = "ToolNotFoundError" ∨ e'.ty = "ToolExecutionError") := by
  refine ⟨fun h => ?_, fun t ht e he => ?_, fun e' he' => ?_⟩
  · simp [ToolRegistry.execute, ToolRegistry.get, h]
  · simp [ToolRegistry.execute, ToolRegistry.get, ht, he]
  · rcases hg : toolsGet r.tools name with _ | t
    · have hx : r.execute name args =
          .error (.mk "ToolNotFoundError" ("Tool not found: " ++ name) none) := by
        simp [ToolRegistry.execute, ToolRegistry.get, hg]
      rw [hx] at he'
      injection he' with h
      subst h
      left; rfl
    · rcases hh : t.handler args with e | v
      · have hx : r.execute name args =
            .error (.mk "ToolExecutionError"
              ("Tool '" ++ name ++ "' execution failed: " ++ e.msg) (some e)) := by
          simp [ToolRegistry.execute, ToolRegistry.get, hg, hh]
        rw [hx] at he'
        injection he' with h
        subst h
        right; rfl
      · have hx : r.execute name args = .ok v := by
          simp [ToolRegistry.execute, ToolRegistry.get, hg, hh]
        rw [hx] at he'
        exact absurd he' (by simp)

/-- A tool whose handler always raises, for the C6 witness. -/
def demoFailTool : ToolDefinition :=
  { name := "boom", description := "always fails", parameters := .obj [],
    handler := fun _ => .error (.mk "ValueError" "bad input" none) }

/-- A registry holding only `demoFailTool`. -/
def demoRegistry : ToolRegistry :=
  ToolRegistry.register { tools := [] } demoFailTool

/-- Witness for C6: a missing name yields `ToolNotFoundError`, and a
raising handler yields a `ToolExecutionError` naming the tool and chaining
the original exception. -/
theorem registry_execute_errors_witness :
    (toolsGet demoRegistry.tools "ghost" = none ∧
      demoRegistry.execute "ghost" (.obj []) =
        .error (.mk "ToolNotFoundError" ("Tool not found: " ++ "ghost") none)) ∧
    (toolsGet demoRegistry.tools "boom" = some demoFailTool ∧
      demoFailTool.handler (.obj []) =
        .error (.mk "ValueError" "bad input" none) ∧
      demoRegistry.execute "boom" (.obj []) =
        .error (.mk "ToolExecutionError"
          ("Tool '" ++ "boom" ++ "' execution failed: " ++
            (PyExn.mk "ValueError" "bad input" none).msg)
          (some (.mk "ValueError" "bad input" none)))) :=
  ⟨⟨rfl, (registry_execute_errors demoRegistry "ghost" (.obj [])).1 rfl⟩,
   ⟨rfl, rfl,
    (registry_execute_errors demoRegistry "boom" (.obj [])).2.1
      demoFailTool rfl (.mk "ValueError" "bad input" none) rfl⟩⟩

/-! ## C9: sharing structure of the ambient state -/

/-- An empty process: no tracer singleton yet, no task has a current span. -/
def procInit : ProcState :=
  { globalTracer := none, currentSpanVar := fun _ => none }

/-- Process state after task 0 has started its trace (id 1). -/
def procA : ProcState := procInit.start_trace 0 [("task", .str "A")] 1 0

/-- Process state after task 1 has then started its own trace (id 2). -/
def procAB : ProcState := procA.start_trace 1 [("task", .str "B")] 2 0

/-- Counterexample to C9: `_current_trace` lives on the process-wide tracer
singleton, so after concurrently running task 1 starts its trace, task 0's
ambient current trace has silently become task 1's trace -- the two turns
observe each other's current trace. -/
theorem ambient_trace_shared_counterexample :
    (procA.get_current_trace 0).map (fun tr => tr.trace_id) = some 1 ∧
    (procAB.get_current_trace 0).map (fun tr => tr.trace_id) = some 2 ∧
    procAB.get_current_trace 0 = procAB.get_current_trace 1 := by
  refine ⟨rfl, rfl, rfl⟩

/-- C9 as amended: the ambient current-span state is task-scoped (one
task's `ContextVar` write is invisible to another task), but the current
trace is stored on the shared tracer singleton, so a trace started by one
task immediately becomes every other task's current trace. -/
theorem ambient_scoping_split (ps : ProcState) (tidA tidB : TaskId)
    (v : Option Nat) (attrs : List (String × JValue))
    (traceId createdAt : Nat) (hne : tidA ≠ tidB) :
    (ps.set_current_span tidB v).get_current_span tidA =
      ps.get_current_span tidA ∧
    (ps.start_trace tidB attrs traceId createdAt).get_current_trace tidA =
      some { trace_id := traceId, spans := [], created_at := createdAt,
             service_name := (ps.get_tracer).1.service_name,
             attributes := attrs } := by
  constructor
  · simp [ProcState.set_current_span, ProcState.get_current_span, hne]
  · rcases h : ps.globalTracer with _ | t <;>
      simp [ProcState.start_trace, ProcState.get_current_trace,
        ProcState.get_tracer, h]

/-- Witness for the amended C9 at two concrete distinct tasks. -/
theorem ambient_scoping_split_witness :
    (0 : TaskId) ≠ 1 ∧
    ((procInit.set_current_span 1 (some 7)).get_current_span 0 =
        procInit.get_current_span 0 ∧
      (procInit.start_trace 1 [] 5 0).get_current_trace 0 =
        some { trace_id := 5, spans := [], created_at := 0,
               service_name := (procInit.get_tracer).1.service_name,
               attributes := [] }) :=
  ⟨by decide, ambient_scoping_split procInit 0 1 (some 7) [] 5 0 (by decide)⟩

/-! ## Frame lemmas for scoped-span programs

The span invariants (C4, C5) hold for arbitrary client code running inside
the scope, so they rest on frame lemmas: running any `TProg` never changes
the identity, parentage, name or start time of an already-registered span;
and, for well-formed states (allocated span ids below the fresh-id
counter), it never changes the status or end time of an already-registered
span either, because the interpreter only ever ends spans it freshly
created. -/

/-- The spans registered on the current trace. -/
def spansOf (st : TracerState) : List Span :=
  match st.currentTrace with
  | none => []
  | some tr => tr.spans

/-- Well-formedness: every registered span id was allocated below the
fresh-id counter. -/
def TracerWF (st : TracerState) : Prop :=
  ∀ sp ∈ spansOf st, sp.span_id < st.nextId

/-- Agreement of two spans on everything except the attribute map. -/
def spanShapeEq (s s' : Span) : Prop :=
  s'.span_id = s.span_id ∧ s'.parent_span_id = s.parent_span_id ∧
  s'.name = s.name ∧ s'.kind = s.kind ∧ s'.start_time = s.start_time ∧
  s'.status = s.status ∧ s'.end_time = s.end_time

/-- Shape agreement is reflexive. -/
theorem spanShapeEq_refl (s : Span) : spanShapeEq s s :=
  ⟨rfl, rfl, rfl, rfl, rfl, rfl, rfl⟩

/-- Shape agreement is transitive. -/
theorem spanShapeEq_trans {a b c : Span} (h1 : spanShapeEq a b)
    (h2 : spanShapeEq b c) : spanShapeEq a c :=
  ⟨h2.1.trans h1.1, h2.2.1.trans h1.2.1, h2.2.2.1.trans h1.2.2.1,
   h2.2.2.2.1.trans h1.2.2.2.1, h2.2.2.2.2.1.trans h1.2.2.2.2.1,
   h2.2.2.2.2.2.1.trans h1.2.2.2.2.2.1, h2.2.2.2.2.2.2.trans h1.2.2.2.2.2.2⟩

/-- The frame relation between a tracer state and any later state of the
same run: counters grow, the trace object survives with its metadata, old
span positions keep their shape (only attributes may change), and spans
appended later carry ids at or above the old fresh-id counter. -/
def traceShapeRel (st st' : TracerState) : Prop :=
  st.nextId ≤ st'.nextId ∧ st.clock ≤ st'.clock ∧
  (st.currentTrace = none → st'.currentTrace = none) ∧
  ∀ tr, st.currentTrace = some tr →
    ∃ tr', st'.currentTrace = some tr' ∧
      tr'.trace_id = tr.trace_id ∧ tr'.created_at = tr.created_at ∧
      tr'.service_name = tr.service_name ∧ tr'.attributes = tr.attributes ∧
      tr.spans.length ≤ tr'.spans.length ∧
      (∀ i s, tr.spans.get? i = some s →
        ∃ s', tr'.spans.get? i = some s' ∧ spanShapeEq s s') ∧
      (∀ j s', tr'.spans.get? j = some s' → tr.spans.length ≤ j →
        st.nextId ≤ s'.span_id)

/-- The frame relation is reflexive. -/
theorem traceShapeRel_refl (st : TracerState) : traceShapeRel st st := by
  refine ⟨le_refl _, le_refl _, fun h => h, fun tr htr => ⟨tr, htr, rfl, rfl,
    rfl, rfl, le_refl _, fun i s hs => ⟨s, hs, spanShapeEq_refl s⟩,
    fun j s' hs' hj => absurd (List.get?_eq_some.mp hs').1 (by omega)⟩⟩

/-- The frame relation is transitive. -/
theorem traceShapeRel_trans {st1 st2 st3 : TracerState}
    (h12 : traceShapeRel st1 st2) (h23 : traceShapeRel st2 st3) :
    traceShapeRel st1 st3 := by
  obtain ⟨hn12, hc12, hnone12, hsome12⟩ := h12
  obtain ⟨hn23, hc23, hnone23, hsome23⟩ := h23
  refine ⟨hn12.trans hn23, hc12.trans hc23,
    fun h => hnone23 (hnone12 h), fun tr htr => ?_⟩
  obtain ⟨tr2, htr2, hid2, hcr2, hsv2, hat2, hlen2, hpos2, hnew2⟩ :=
    hsome12 tr htr
  obtain ⟨tr3, htr3, hid3, hcr3, hsv3, hat3, hlen3, hpos3, hnew3⟩ :=
    hsome23 tr2 htr2
  refine ⟨tr3, htr3, hid3.trans hid2, hcr3.trans hcr2, hsv3.trans hsv2,
    hat3.trans hat2, hlen2.trans hlen3, ?_, ?_⟩
  · intro i s hs
    obtain ⟨s2, hs2, hsh2⟩ := hpos2 i s hs
    obtain ⟨s3, hs3, hsh3⟩ := hpos3 i s2 hs2
    exact ⟨s3, hs3, spanShapeEq_trans hsh2 hsh3⟩
  · intro j s' hs' hj
    by_cases hjl : j < tr2.spans.length
    · have hs2 : tr2.spans.get? j = some (tr2.spans.get ⟨j, hjl⟩) :=
        List.get?_eq_get hjl
      have hb2 := hnew2 j (tr2.spans.get ⟨j, hjl⟩) hs2 hj
      obtain ⟨s3, hs3, hsh3⟩ := hpos3 j (tr2.spans.get ⟨j, hjl⟩) hs2
      rw [hs'] at hs3
      injection hs3 with hs3
      rw [hs3, hsh3.1]
      exact hb2
    · exact le_trans hn12 (hnew3 j s' hs' (le_of_not_lt hjl))

/-- `mapSpans` leaves the fresh-id counter unchanged. -/
theorem mapSpans_nextId (st : TracerState) (f : Span → Span) :
    (st.mapSpans f).nextId = st.nextId := by
  rcases h : st.currentTrace with _ | tr <;> simp [TracerState.mapSpans, h]

/-- `mapSpans` leaves the clock unchanged. -/
theorem mapSpans_clock (st : TracerState) (f : Span → Span) :
    (st.mapSpans f).clock = st.clock := by
  rcases h : st.currentTrace with _ | tr <;> simp [TracerState.mapSpans, h]

/-- `mapSpans` leaves the ambient span unchanged. -/
theorem mapSpans_currentSpan (st : TracerState) (f : Span → Span) :
    (st.mapSpans f).currentSpan = st.currentSpan := by
  rcases h : st.currentTrace with _ | tr <;> simp [TracerState.mapSpans, h]

/-- The registered spans after a `mapSpans` are the map of the registered
spans. -/
theorem spansOf_mapSpans (st : TracerState) (f : Span → Span) :
    spansOf (st.mapSpans f) = (spansOf st).map f := by
  rcases h : st.currentTrace with _ | tr <;>
    simp [TracerState.mapSpans, spansOf, h]

/-- An id-preserving span mutation keeps well-formedness. -/
theorem TracerWF_mapSpans {st : TracerState} {f : Span → Span}
    (hid : ∀ sp, (f sp).span_id = sp.span_id) (h : TracerWF st) :
    TracerWF (st.mapSpans f) := by
  intro sp hsp
  rw [spansOf_mapSpans] at hsp
  obtain ⟨sp0, hsp0, rfl⟩ := List.mem_map.mp hsp
  rw [mapSpans_nextId, hid]
  exact h sp0 hsp0

/-- The frame relation absorbs any id-preserving span mutation that leaves
the shape of spans allocated before the frame's start untouched. -/
theorem traceShapeRel_mapSpans {st st2 : TracerState} {g : Span → Span}
    (hwf : TracerWF st) (hrel : traceShapeRel st st2)
    (hid : ∀ sp, (g sp).span_id = sp.span_id)
    (hold : ∀ sp, sp.span_id < st.nextId → spanShapeEq sp (g sp)) :
    traceShapeRel st (st2.mapSpans g) := by
  obtain ⟨hn, hc, hnone, hsome⟩ := hrel
  refine ⟨by rw [mapSpans_nextId]; exact hn, by rw [mapSpans_clock]; exact hc,
    ?_, ?_⟩
  · intro h
    have h2 := hnone h
    simp [TracerState.mapSpans, h2]
  · intro tr htr
    obtain ⟨tr2, htr2, hid2, hcr2, hsv2, hat2, hlen2, hpos2, hnew2⟩ :=
      hsome tr htr
    refine ⟨{ tr2 with spans := tr2.spans.map g }, ?_, hid2, hcr2, hsv2, hat2,
      by simpa using hlen2, ?_, ?_⟩
    · simp [TracerState.mapSpans, htr2]
    · intro i s hs
      obtain ⟨s2, hs2, hsh2⟩ := hpos2 i s hs
      refine ⟨g s2, ?_, ?_⟩
      · show (tr2.spans.map g).get? i = some (g s2)
        rw [List.get?_map, hs2]
        rfl
      · have hmem : s ∈ tr.spans := List.get?_mem hs
        have hidlt : s2.span_id < st.nextId := by
          rw [hsh2.1]
          exact hwf s (by rw [spansOf, htr]; exact hmem)
        exact spanShapeEq_trans hsh2 (hold s2 hidlt)
    · intro j s' hs' hj
      have hs'' : (tr2.spans.get? j).map g = some s' := by
        rw [← List.get?_map]
        exact hs'
      rcases hg : tr2.spans.get? j with _ | s2
      · rw [hg] at hs''; cases hs''
      · rw [hg] at hs''
        injection hs'' with hs''
        rw [← hs'', hid]
        exact hnew2 j s2 hg hj

/-- The frame relation tolerates advancing the clock. -/
theorem traceShapeRel_clock {st st2 : TracerState} (hrel : traceShapeRel st st2)
    {c : Nat} (hc : st2.clock ≤ c) :
    traceShapeRel st { st2 with clock := c } := by
  obtain ⟨hn, hcl, hnone, hsome⟩ := hrel
  exact ⟨hn, hcl.trans hc, hnone, hsome⟩

/-- The frame relation ignores the ambient-span pointer. -/
theorem traceShapeRel_currentSpan {st st2 : TracerState}
    (hrel : traceShapeRel st st2) (v : Option Nat) :
    traceShapeRel st { st2 with currentSpan := v } := by
  obtain ⟨hn, hcl, hnone, hsome⟩ := hrel
  exact ⟨hn, hcl, hnone, hsome⟩

/-- Setting an attribute on any span preserves the frame relation:
attributes are outside the protected shape. -/
theorem traceShapeRel_setSpanAttr {st st2 : TracerState} (hwf : TracerWF st)
    (hrel : traceShapeRel st st2) (sid : Nat) (k : String) (v : JValue) :
    traceShapeRel st (st2.setSpanAttr sid k v) := by
  unfold TracerState.setSpanAttr
  refine traceShapeRel_mapSpans hwf hrel (fun sp => ?_) (fun sp _ => ?_)
  · by_cases h : sp.span_id = sid <;> simp [h, Span.set_attribute]
  · by_cases h : sp.span_id = sid <;>
      simp [h, Span.set_attribute, spanShapeEq_refl, spanShapeEq]

/-- Ending a freshly-allocated span (id at or above the frame's starting
counter) preserves the frame relation: spans registered before the frame
keep their status and end time. -/
theorem traceShapeRel_endSpan {st st2 : TracerState} (hwf : TracerWF st)
    (hrel : traceShapeRel st st2) {sid : Nat} (hsid : st.nextId ≤ sid)
    (status : SpanStatus) :
    traceShapeRel st (st2.endSpan sid status) := by
  unfold TracerState.endSpan TracerState.now
  refine traceShapeRel_mapSpans hwf (traceShapeRel_clock hrel (by omega))
    (fun sp => ?_) (fun sp hlt => ?_)
  · by_cases h : sp.span_id = sid <;> simp [h, Span.endAt]
  · have h : ¬sp.span_id = sid := by omega
    simp [h, spanShapeEq_refl]

/-- Well-formedness ignores the clock. -/
theorem TracerWF_clock {st : TracerState} (h : TracerWF st) (c : Nat) :
    TracerWF { st with clock := c } := h

/-- Well-formedness ignores the ambient-span pointer. -/
theorem TracerWF_currentSpan {st : TracerState} (h : TracerWF st)
    (v : Option Nat) : TracerWF { st with currentSpan := v } := h

/-- Ending a span does not change ids, so well-formedness survives. -/
theorem TracerWF_endSpan {st : TracerState} (h : TracerWF st) (sid : Nat)
    (status : SpanStatus) : TracerWF (st.endSpan sid status) :=
  TracerWF_mapSpans
    (fun sp => by by_cases hh : sp.span_id = sid <;> simp [hh, Span.endAt])
    (TracerWF_clock h (st.clock + 1))

/-- Annotating a span does not change ids, so well-formedness survives. -/
theorem TracerWF_setSpanAttr {st : TracerState} (h : TracerWF st) (sid : Nat)
    (k : String) (v : JValue) : TracerWF (st.setSpanAttr sid k v) :=
  TracerWF_mapSpans
    (fun sp => by
      by_cases hh : sp.span_id = sid <;> simp [hh, Span.set_attribute]) h

/-- Well-formedness survives `closeSpanOk`. -/
theorem TracerWF_closeSpanOk {st : TracerState} (h : TracerWF st) (sid : Nat)
    (token : Option Nat) : TracerWF (st.closeSpanOk sid token) :=
  TracerWF_currentSpan (TracerWF_endSpan h sid .ok) token

/-- Well-formedness survives `closeSpanErr`. -/
theorem TracerWF_closeSpanErr {st : TracerState} (h : TracerWF st) (sid : Nat)
    (token : Option Nat) (e : PyExn) :
    TracerWF (st.closeSpanErr sid token e) :=
  TracerWF_currentSpan
    (TracerWF_endSpan
      (TracerWF_setSpanAttr
        (TracerWF_setSpanAttr h sid "error.type" (.str e.ty))
        sid "error.message" (.str e.msg))
      sid .error) token

/-- Opening a span on a live trace succeeds and has exactly this effect:
the new span (parented on the ambient span, freshly numbered, started at
the current clock) is appended, becomes ambient, and the counters tick. -/
theorem openSpan_spec (st : TracerState) (tr : Trace) (name : String)
    (kind : SpanKind) (attrs : List (String × JValue))
    (htr : st.currentTrace = some tr) :
    st.openSpan name kind attrs =
      .ok ((st.nextId, st.currentSpan),
        { currentTrace := some (tr.add_span (mkSpan st tr.trace_id name kind attrs)),
          currentSpan := some st.nextId,
          clock := st.clock + 1,
          nextId := st.nextId + 1 }) := by
  simp [TracerState.openSpan, htr, TracerState.now, mkSpan]

/-- Appending a freshly-numbered span (with any ambient pointer and
advanced counters) satisfies the frame relation. -/
theorem traceShapeRel_addSpan (st : TracerState) (tr : Trace) (sp : Span)
    (htr : st.currentTrace = some tr) (hid : st.nextId ≤ sp.span_id)
    (v : Option Nat) (c n : Nat) (hc : st.clock ≤ c) (hn : st.nextId ≤ n) :
    traceShapeRel st
      { currentTrace := some (tr.add_span sp), currentSpan := v,
        clock := c, nextId := n } := by
  refine ⟨hn, hc, ?_, ?_⟩
  · intro h
    rw [htr] at h
    cases h
  · intro tr0 htr0
    rw [htr] at htr0
    injection htr0 with htr0
    subst htr0
    refine ⟨tr.add_span sp, rfl, rfl, rfl, rfl, rfl,
      by simp [Trace.add_span], ?_, ?_⟩
    · intro i s hs
      refine ⟨s, ?_, spanShapeEq_refl s⟩
      have hi : i < tr.spans.length := (List.get?_eq_some.mp hs).1
      show (tr.spans ++ [sp]).get? i = some s
      rw [List.get?_append hi]
      exact hs
    · intro j s' hs' hj
      have hs'' : (tr.spans ++ [sp]).get? j = some s' := hs'
      rw [List.get?_append_right hj] at hs''
      rcases hj0 : j - tr.spans.length with _ | k
      · rw [hj0] at hs''
        injection hs'' with hs''
        rw [← hs'']
        exact hid
      · rw [hj0] at hs''
        simp at hs''

/-- The central frame theorem: running any scoped-span client program from
a well-formed state (i) satisfies the frame relation -- in particular it
never changes the status, end time, identity or parentage of a span that
was already registered, (ii) leaves the ambient current span exactly as it
found it, whether it exits normally or with an exception, and (iii)
preserves well-formedness. -/
theorem runP_frame (p : TProg) : ∀ st : TracerState, TracerWF st →
    traceShapeRel st (runP p st).2 ∧
    (runP p st).2.currentSpan = st.currentSpan ∧
    TracerWF (runP p st).2 := by
  induction p with
  | skip => exact fun st h => ⟨traceShapeRel_refl st, rfl, h⟩
  | raiseE e => exact fun st h => ⟨traceShapeRel_refl st, rfl, h⟩
  | setAttr k v =>
      intro st h
      have heq : (runP (.setAttr k v) st).2 = st.setCurSpanAttr k v := rfl
      rw [heq]
      rcases hc : st.currentSpan with _ | sid
      · unfold TracerState.setCurSpanAttr
        rw [hc]
        exact ⟨traceShapeRel_refl st, hc, h⟩
      · unfold TracerState.setCurSpanAttr
        rw [hc]
        exact ⟨traceShapeRel_setSpanAttr h (traceShapeRel_refl st) sid k v,
          (mapSpans_currentSpan st _).trans hc, TracerWF_setSpanAttr h sid k v⟩
  | seq p q ihp ihq =>
      intro st h
      obtain ⟨relp, csp, wfp⟩ := ihp st h
      rcases hrun : runP p st with ⟨o, st1⟩
      rw [hrun] at relp csp wfp
      cases o with
      | none =>
          obtain ⟨relq, csq, wfq⟩ := ihq st1 wfp
          simp only [runP, hrun]
          exact ⟨traceShapeRel_trans relp relq, csq.trans csp, wfq⟩
      | some e =>
          simp only [runP, hrun]
          exact ⟨relp, csp, wfp⟩
  | spanOp name kind attrs body ih =>
      intro st h
      rcases htr : st.currentTrace with _ | tr
      · have heq : runP (.spanOp name kind attrs body) st =
            (some (.mk "RuntimeError"
              "No active trace. Call start_trace() first." none), st) := by
          simp only [runP, TracerState.openSpan, htr]
        rw [heq]
        exact ⟨traceShapeRel_refl st, rfl, h⟩
      · have hopen := openSpan_spec st tr name kind attrs htr
        have hwf1 : TracerWF
            { currentTrace := some (tr.add_span (mkSpan st tr.trace_id name kind attrs)),
              currentSpan := some st.nextId,
              clock := st.clock + 1,
              nextId := st.nextId + 1 } := by
          intro s hs
          simp only [spansOf, Trace.add_span, List.mem_append,
            List.mem_singleton] at hs
          rcases hs with hs | hs
          · have := h s (by rw [spansOf, htr]; exact hs)
            show s.span_id < st.nextId + 1
            omega
          · subst hs
            show (mkSpan st tr.trace_id name kind attrs).span_id < st.nextId + 1
            simp [mkSpan]
        have rel01 : traceShapeRel st
            { currentTrace := some (tr.add_span (mkSpan st tr.trace_id name kind attrs)),
              currentSpan := some st.nextId,
              clock := st.clock + 1,
              nextId := st.nextId + 1 } :=
          traceShapeRel_addSpan st tr _ htr (by simp [mkSpan]) _ _ _
            (by omega) (by omega)
        obtain ⟨relb, csb, wfb⟩ := ih _ hwf1
        rcases hb : runP body
            { currentTrace := some (tr.add_span (mkSpan st tr.trace_id name kind attrs)),
              currentSpan := some st.nextId,
              clock := st.clock + 1,
              nextId := st.nextId + 1 } with ⟨ob, st2⟩
        rw [hb] at relb csb wfb
        have rel02 : traceShapeRel st st2 := traceShapeRel_trans rel01 relb
        cases ob with
        | none =>
            simp only [runP, hopen, hb]
            exact ⟨traceShapeRel_currentSpan
                (traceShapeRel_endSpan h rel02 (le_refl _) .ok) _,
              rfl, TracerWF_closeSpanOk wfb _ _⟩
        | some e =>
            simp only [runP, hopen, hb]
            exact ⟨traceShapeRel_currentSpan
                (traceShapeRel_endSpan h
                  (traceShapeRel_setSpanAttr h
                    (traceShapeRel_setSpanAttr h rel02 st.nextId
                      "error.type" (.str e.ty))
                    st.nextId "error.message" (.str e.msg))
                  (le_refl _) .error) _,
              rfl, TracerWF_closeSpanErr wfb _ _ e⟩

/-- The state `openSpan` produces on a live trace is well-formed. -/
theorem TracerWF_openSpan (st : TracerState) (tr : Trace) (name : String)
    (kind : SpanKind) (attrs : List (String × JValue))
    (hwf : TracerWF st) (htr : st.currentTrace = some tr) :
    TracerWF
      { currentTrace := some (tr.add_span (mkSpan st tr.trace_id name kind attrs)),
        currentSpan := some st.nextId,
        clock := st.clock + 1,
        nextId := st.nextId + 1 } := by
  intro s hs
  simp only [spansOf, Trace.add_span, List.mem_append, List.mem_singleton] at hs
  rcases hs with hs | hs
  · have := hwf s (by rw [spansOf, htr]; exact hs)
    show s.span_id < st.nextId + 1
    omega
  · subst hs
    show (mkSpan st tr.trace_id name kind attrs).span_id < st.nextId + 1
    simp [mkSpan]

/-- Explicit effect of `setSpanAttr` on a live trace. -/
theorem setSpanAttr_currentTrace (st : TracerState) (tr : Trace) (sid : Nat)
    (k : String) (v : JValue) (htr : st.currentTrace = some tr) :
    (st.setSpanAttr sid k v).currentTrace =
      some { tr with spans := tr.spans.map (fun sp => if sp.span_id = sid then sp.set_attribute k v else sp) } := by
  simp [TracerState.setSpanAttr, TracerState.mapSpans, htr]

/-- Explicit effect of `endSpan` on a live trace. -/
theorem endSpan_currentTrace (st : TracerState) (tr : Trace) (sid : Nat)
    (status : SpanStatus) (htr : st.currentTrace = some tr) :
    (st.endSpan sid status).currentTrace =
      some { tr with spans := tr.spans.map (fun sp => if sp.span_id = sid then sp.endAt st.clock status else sp) } := by
  simp [TracerState.endSpan, TracerState.now, TracerState.mapSpans, htr]

/-- C4: for every span opened via `Tracer.span`, the span enters the scope
unset and unended; after the scope exits it is ended with
`end_time ≥ start_time`; its status is `error` exactly when an exception
propagated through the scope (in which case `error.type`/`error.message`
are recorded and the exception is re-raised unchanged) and `ok` otherwise
-- so the status transitions exactly once, from `unset` to `ok` or from
`unset` to `error`. -/
theorem span_scope_invariants (st : TracerState) (tr : Trace) (name : String)
    (kind : SpanKind) (attrs : List (String × JValue)) (body : TProg)
    (sid : Nat) (token : Option Nat) (st1 : TracerState)
    (hwf : TracerWF st) (htr : st.currentTrace = some tr)
    (hopen : st.openSpan name kind attrs = .ok ((sid, token), st1)) :
    (mkSpan st tr.trace_id name kind attrs).status = SpanStatus.unset ∧
    (mkSpan st tr.trace_id name kind attrs).end_time = none ∧
    (∃ tr1, st1.currentTrace = some tr1 ∧
      tr1.spans.get? tr.spans.length =
        some (mkSpan st tr.trace_id name kind attrs)) ∧
    (runP (.spanOp name kind attrs body) st).1 = (runP body st1).1 ∧
    ∃ tr' sp,
      ((runP (.spanOp name kind attrs body) st).2).currentTrace = some tr' ∧
      tr'.spans.get? tr.spans.length = some sp ∧
      sp.name = name ∧ sp.kind = kind ∧ sp.start_time = st.clock ∧
      sp.parent_span_id = st.currentSpan ∧ sp.span_id = sid ∧
      (∃ t, sp.end_time = some t ∧ sp.start_time ≤ t) ∧
      (sp.status = SpanStatus.error ↔ (runP body st1).1 ≠ none) ∧
      (sp.status = SpanStatus.ok ↔ (runP body st1).1 = none) ∧
      ∀ e, (runP body st1).1 = some e →
        (runP (.spanOp name kind attrs body) st).1 = some e ∧
        dictGet sp.attributes "error.type" = some (.str e.ty) ∧
        dictGet sp.attributes "error.message" = some (.str e.msg) := by
  have hspec := openSpan_spec st tr name kind attrs htr
  rw [hopen] at hspec
  injection hspec with hspec
  injection hspec with hA hB
  injection hA with hsid htoken
  subst hsid
  subst htoken
  subst hB
  have hwf1 := TracerWF_openSpan st tr name kind attrs hwf htr
  obtain ⟨relb, csb, wfb⟩ := runP_frame body _ hwf1
  rcases hb : runP body
      { currentTrace := some (tr.add_span (mkSpan st tr.trace_id name kind attrs)),
        currentSpan := some st.nextId,
        clock := st.clock + 1,
        nextId := st.nextId + 1 } with ⟨ob, st2⟩
  rw [hb] at relb wfb
  have hsp1 : (tr.add_span (mkSpan st tr.trace_id name kind attrs)).spans.get?
      tr.spans.length = some (mkSpan st tr.trace_id name kind attrs) := by
    simpa [Trace.add_span] using
      List.get?_concat_length tr.spans (mkSpan st tr.trace_id name kind attrs)
  obtain ⟨tr2, htr2, _, _, _, _, hlen2, hpos2, _⟩ := relb.2.2.2 _ rfl
  obtain ⟨s2, hs2, hsh2⟩ := hpos2 tr.spans.length _ hsp1
  have hs2id : s2.span_id = st.nextId := by
    rw [hsh2.1]
    rfl
  have hclk : st.clock + 1 ≤ st2.clock := relb.2.1
  have hrun : runP (.spanOp name kind attrs body) st =
      (match runP body
        { currentTrace := some (tr.add_span (mkSpan st tr.trace_id name kind attrs)),
          currentSpan := some st.nextId,
          clock := st.clock + 1,
          nextId := st.nextId + 1 } with
       | (none, stx) => (none, stx.closeSpanOk st.nextId st.currentSpan)
       | (some e, stx) => (some e, stx.closeSpanErr st.nextId st.currentSpan e)) := by
    simp only [runP, hopen]
  rw [hb] at hrun
  obtain ⟨h2id, h2par, h2name, h2kind, h2start, h2status, h2end⟩ := hsh2
  simp only [mkSpan] at h2id h2par h2name h2kind h2start h2status h2end
  refine ⟨rfl, rfl, ⟨_, rfl, hsp1⟩, ?_, ?_⟩
  · rw [hrun]
    cases ob <;> rfl
  · simp only [hb]
    cases ob with
    | none =>
        have hcur := endSpan_currentTrace st2 tr2 st.nextId SpanStatus.ok htr2
        refine ⟨{ tr2 with spans := tr2.spans.map (fun sp => if sp.span_id = st.nextId then sp.endAt st2.clock SpanStatus.ok else sp) },
          s2.endAt st2.clock SpanStatus.ok,
          ?_, ?_, ?_, ?_, ?_, ?_, ?_, ?_, ?_, ?_, ?_⟩
        · rw [hrun]
          exact hcur
        · simp [List.get?_map, hs2, h2id]
          exact ⟨s2, by simpa using hs2, by simp [h2id]⟩
        · simp [Span.endAt, h2name]
        · simp [Span.endAt, h2kind]
        · simp [Span.endAt, h2start]
        · simp [Span.endAt, h2par]
        · simp [Span.endAt, h2id]
        · refine ⟨st2.clock, by simp [Span.endAt], ?_⟩
          simp [Span.endAt, h2start]
          omega
        · simp [Span.endAt]
        · simp [Span.endAt]
        · intro e he
          simp at he
    | some e =>
        have hcurA := setSpanAttr_currentTrace st2 tr2 st.nextId
          "error.type" (JValue.str e.ty) htr2
        have hcurB := setSpanAttr_currentTrace _ _ st.nextId
          "error.message" (JValue.str e.msg) hcurA
        have hcurC := endSpan_currentTrace _ _ st.nextId SpanStatus.error hcurB
        have hclB : ((st2.setSpanAttr st.nextId "error.type"
            (JValue.str e.ty)).setSpanAttr st.nextId "error.message"
            (JValue.str e.msg)).clock = st2.clock := by
          simp only [TracerState.setSpanAttr, mapSpans_clock]
        simp only [hclB] at hcurC
        have hcurD : ((((st2.setSpanAttr st.nextId "error.type" (JValue.str e.ty)).setSpanAttr st.nextId "error.message" (JValue.str e.msg))).endSpan st.nextId SpanStatus.error).currentTrace = some { tr2 with spans := ((tr2.spans.map (fun sp => if sp.span_id = st.nextId then sp.set_attribute "error.type" (JValue.str e.ty) else sp)).map (fun sp => if sp.span_id = st.nextId then sp.set_attribute "error.message" (JValue.str e.msg) else sp)).map (fun sp => if sp.span_id = st.nextId then sp.endAt st2.clock SpanStatus.error else sp) } := hcurC
        refine ⟨{ tr2 with spans := ((tr2.spans.map (fun sp => if sp.span_id = st.nextId then sp.set_attribute "error.type" (JValue.str e.ty) else sp)).map (fun sp => if sp.span_id = st.nextId then sp.set_attribute "error.message" (JValue.str e.msg) else sp)).map (fun sp => if sp.span_id = st.nextId then sp.endAt st2.clock SpanStatus.error else sp) },
          ((s2.set_attribute "error.type" (JValue.str e.ty)).set_attribute
            "error.message" (JValue.str e.msg)).endAt st2.clock SpanStatus.error,
          ?_, ?_, ?_, ?_, ?_, ?_, ?_, ?_, ?_, ?_, ?_⟩
        · rw [hrun]
          exact hcurD
        · simp [List.get?_map, hs2, h2id, Span.set_attribute]
          exact ⟨s2, by simpa using hs2, by simp [h2id, Span.set_attribute]⟩
        · simp [Span.endAt, Span.set_attribute, h2name]
        · simp [Span.endAt, Span.set_attribute, h2kind]
        · simp [Span.endAt, Span.set_attribute, h2start]
        · simp [Span.endAt, Span.set_attribute, h2par]
        · simp [Span.endAt, Span.set_attribute, h2id]
        · refine ⟨st2.clock, by simp [Span.endAt], ?_⟩
          simp [Span.endAt, Span.set_attribute, h2start]
          omega
        · simp [Span.endAt]
        · simp [Span.endAt]
        · intro e' he'
          simp at he'
          subst he'
          refine ⟨by rw [hrun], ?_, ?_⟩
          · show dictGet ((((s2.set_attribute "error.type" (JValue.str e.ty)).set_attribute "error.message" (JValue.str e.msg)).endAt st2.clock SpanStatus.error).attributes) "error.type" = some (JValue.str e.ty)
            simp only [Span.endAt, Span.set_attribute]
            rw [dictGet_dictSet_ne _ _ _ _ (by decide), dictGet_dictSet_self]
          · show dictGet ((((s2.set_attribute "error.type" (JValue.str e.ty)).set_attribute "error.message" (JValue.str e.msg)).endAt st2.clock SpanStatus.error).attributes) "error.message" = some (JValue.str e.msg)
            simp only [Span.endAt, Span.set_attribute]
            rw [dictGet_dictSet_self]

/-- Witness for C4: a freshly-started trace, a `skip` body; the scope's
span ends with `ok` status and an end time at or after its start time. -/
theorem span_scope_invariants_witness :
    TracerWF (TracerState.init.start_trace []).2 ∧
    ((TracerState.init.start_trace []).2).currentTrace =
      some { trace_id := 0, spans := [], created_at := 0,
             service_name := "detective-agent", attributes := [] } ∧
    ∃ tr' sp,
      ((runP (TProg.spanOp "w" SpanKind.internal [] TProg.skip)
          (TracerState.init.start_trace []).2).2).currentTrace = some tr' ∧
      tr'.spans.get? 0 = some sp ∧
      (∃ t, sp.end_time = some t ∧ sp.start_time ≤ t) ∧
      sp.status = SpanStatus.ok := by
  have hwfp : TracerWF (TracerState.init.start_trace []).2 := by
    intro sp hsp
    simp [spansOf, TracerState.init, TracerState.start_trace,
      TracerState.now] at hsp
  have h := span_scope_invariants (TracerState.init.start_trace []).2
    { trace_id := 0, spans := [], created_at := 0,
      service_name := "detective-agent", attributes := [] }
    "w" SpanKind.internal [] TProg.skip _ _ _ hwfp rfl
    (openSpan_spec _ _ "w" SpanKind.internal [] rfl)
  obtain ⟨-, -, -, -, tr', sp, hct, hget, -, -, -, -, -, hend, -, hok, -⟩ := h
  exact ⟨hwfp, rfl, tr', sp, hct, hget, hend, hok.mpr rfl⟩

/-- Position-wise preservation of span identity and parentage under any
id- and parent-preserving span mutation. -/
theorem get?_mapSpans_idParent (st : TracerState) (tr : Trace)
    (g : Span → Span) (htr : st.currentTrace = some tr)
    (hg : ∀ sp, (g sp).span_id = sp.span_id ∧
      (g sp).parent_span_id = sp.parent_span_id) :
    ∃ tr', (st.mapSpans g).currentTrace = some tr' ∧
      ∀ i s, tr.spans.get? i = some s →
        ∃ s', tr'.spans.get? i = some s' ∧ s'.span_id = s.span_id ∧
          s'.parent_span_id = s.parent_span_id := by
  refine ⟨{ tr with spans := tr.spans.map g },
    by simp [TracerState.mapSpans, htr], ?_⟩
  intro i s hs
  refine ⟨g s, ?_, (hg s).1, (hg s).2⟩
  rw [List.get?_map, hs]
  rfl

/-- `closeSpanOk` keeps every registered span's identity and parentage. -/
theorem closeSpanOk_idParent (stX : TracerState) (trX : Trace) (sid : Nat)
    (token : Option Nat) (htrX : stX.currentTrace = some trX) :
    ∃ tr', (stX.closeSpanOk sid token).currentTrace = some tr' ∧
      ∀ i s, trX.spans.get? i = some s →
        ∃ s', tr'.spans.get? i = some s' ∧ s'.span_id = s.span_id ∧
          s'.parent_span_id = s.parent_span_id :=
  get?_mapSpans_idParent { stX with clock := stX.clock + 1 } trX
    (fun sp => if sp.span_id = sid then sp.endAt stX.clock SpanStatus.ok else sp)
    htrX
    (fun sp => by by_cases h : sp.span_id = sid <;> simp [h, Span.endAt])

/-- `closeSpanErr` keeps every registered span's identity and parentage. -/
theorem closeSpanErr_idParent (stX : TracerState) (trX : Trace) (sid : Nat)
    (token : Option Nat) (e : PyExn) (htrX : stX.currentTrace = some trX) :
    ∃ tr', (stX.closeSpanErr sid token e).currentTrace = some tr' ∧
      ∀ i s, trX.spans.get? i = some s →
        ∃ s', tr'.spans.get? i = some s' ∧ s'.span_id = s.span_id ∧
          s'.parent_span_id = s.parent_span_id := by
  obtain ⟨trA, hA, hpA⟩ := get?_mapSpans_idParent stX trX
    (fun sp => if sp.span_id = sid then sp.set_attribute "error.type" (JValue.str e.ty) else sp)
    htrX
    (fun sp => by by_cases h : sp.span_id = sid <;> simp [h, Span.set_attribute])
  obtain ⟨trB, hB, hpB⟩ := get?_mapSpans_idParent
    (stX.setSpanAttr sid "error.type" (JValue.str e.ty)) trA
    (fun sp => if sp.span_id = sid then sp.set_attribute "error.message" (JValue.str e.msg) else sp)
    hA
    (fun sp => by by_cases h : sp.span_id = sid <;> simp [h, Span.set_attribute])
  obtain ⟨trC, hC, hpC⟩ := get?_mapSpans_idParent
    { (stX.setSpanAttr sid "error.type" (JValue.str e.ty)).setSpanAttr sid
        "error.message" (JValue.str e.msg) with
      clock := ((stX.setSpanAttr sid "error.type" (JValue.str e.ty)).setSpanAttr
        sid "error.message" (JValue.str e.msg)).clock + 1 } trB
    (fun sp => if sp.span_id = sid then sp.endAt ((stX.setSpanAttr sid "error.type" (JValue.str e.ty)).setSpanAttr sid "error.message" (JValue.str e.msg)).clock SpanStatus.error else sp)
    hB
    (fun sp => by by_cases h : sp.span_id = sid <;> simp [h, Span.endAt])
  refine ⟨trC, hC, ?_⟩
  intro i s hs
  obtain ⟨sA, hsA, hidA, hparA⟩ := hpA i s hs
  obtain ⟨sB, hsB, hidB, hparB⟩ := hpB i sA hsA
  obtain ⟨sC, hsC, hidC, hparC⟩ := hpC i sB hsB
  exact ⟨sC, hsC, by rw [hidC, hidB, hidA], by rw [hparC, hparB, hparA]⟩

/-- C5: opening span B while span A is the ambient current span sets
`B.parent_span_id = A.span_id`, and after a scope exits -- normally or
exceptionally, at any nesting depth and for any body -- the ambient
current span is restored to its value from before the scope was entered. -/
theorem nested_span_parent_restore (st : TracerState) (tr : Trace)
    (nA nB : String) (kA kB : SpanKind)
    (aA aB : List (String × JValue)) (bodyB rest : TProg)
    (hwf : TracerWF st) (htr : st.currentTrace = some tr) :
    (∀ body : TProg,
      ((runP (.spanOp nA kA aA body) st).2).currentSpan = st.currentSpan) ∧
    ∃ tr' spA spB,
      ((runP (.spanOp nA kA aA (.seq (.spanOp nB kB aB bodyB) rest))
          st).2).currentTrace = some tr' ∧
      tr'.spans.get? tr.spans.length = some spA ∧
      tr'.spans.get? (tr.spans.length + 1) = some spB ∧
      spB.parent_span_id = some spA.span_id := by
  constructor
  · intro body
    exact (runP_frame (.spanOp nA kA aA body) st hwf).2.1
  · have hopenA := openSpan_spec st tr nA kA aA htr
    have hwf1 := TracerWF_openSpan st tr nA kA aA hwf htr
    obtain ⟨-, -, -, -, trO, spA, hct4, hget4, -, -, -, -, hidA, -, -, -, -⟩ :=
      span_scope_invariants st tr nA kA aA
        (.seq (.spanOp nB kB aB bodyB) rest) st.nextId st.currentSpan _
        hwf htr hopenA
    obtain ⟨-, -, -, -, trB, spB1, hctB, hgetB, -, -, -, hparB, -, -, -, -, -⟩ :=
      span_scope_invariants
        { currentTrace := some (tr.add_span (mkSpan st tr.trace_id nA kA aA)),
          currentSpan := some st.nextId,
          clock := st.clock + 1,
          nextId := st.nextId + 1 } (tr.add_span (mkSpan st tr.trace_id nA kA aA))
        nB kB aB bodyB _ _ _ hwf1 rfl
        (openSpan_spec _ _ nB kB aB rfl)
    have hparB' : spB1.parent_span_id = some st.nextId := hparB
    have hlen1 : (tr.add_span (mkSpan st tr.trace_id nA kA aA)).spans.length =
        tr.spans.length + 1 := by simp [Trace.add_span]
    rw [hlen1] at hgetB
    have hwfB := (runP_frame (.spanOp nB kB aB bodyB)
      { currentTrace := some (tr.add_span (mkSpan st tr.trace_id nA kA aA)),
        currentSpan := some st.nextId,
        clock := st.clock + 1,
        nextId := st.nextId + 1 } hwf1).2.2
    have hrunP : runP (.spanOp nA kA aA (.seq (.spanOp nB kB aB bodyB) rest)) st =
        (match runP (.seq (.spanOp nB kB aB bodyB) rest)
          { currentTrace := some (tr.add_span (mkSpan st tr.trace_id nA kA aA)),
            currentSpan := some st.nextId,
            clock := st.clock + 1,
            nextId := st.nextId + 1 } with
         | (none, stx) => (none, stx.closeSpanOk st.nextId st.currentSpan)
         | (some e, stx) => (some e, stx.closeSpanErr st.nextId st.currentSpan e)) := by
      simp only [runP, hopenA]
    have hrunS : runP (.seq (.spanOp nB kB aB bodyB) rest)
        { currentTrace := some (tr.add_span (mkSpan st tr.trace_id nA kA aA)),
          currentSpan := some st.nextId,
          clock := st.clock + 1,
          nextId := st.nextId + 1 } =
        (match runP (.spanOp nB kB aB bodyB)
          { currentTrace := some (tr.add_span (mkSpan st tr.trace_id nA kA aA)),
            currentSpan := some st.nextId,
            clock := st.clock + 1,
            nextId := st.nextId + 1 } with
         | (some e, st') => (some e, st')
         | (none, st') => runP rest st') := by
      simp only [runP]
    rcases hSB : runP (.spanOp nB kB aB bodyB)
        { currentTrace := some (tr.add_span (mkSpan st tr.trace_id nA kA aA)),
          currentSpan := some st.nextId,
          clock := st.clock + 1,
          nextId := st.nextId + 1 } with ⟨oB, stB⟩
    rw [hSB] at hctB hwfB hrunS
    have hct4' := hct4
    cases oB with
    | some e =>
        have hrunP2 : runP (.spanOp nA kA aA
            (.seq (.spanOp nB kB aB bodyB) rest)) st =
            (some e, stB.closeSpanErr st.nextId st.currentSpan e) := by
          rw [hrunP, hrunS]
        obtain ⟨trC, hC, hpC⟩ := closeSpanErr_idParent stB trB st.nextId
          st.currentSpan e hctB
        obtain ⟨spB2, hgetC, hidC, hparC⟩ := hpC _ spB1 hgetB
        rw [hrunP2] at hct4
        have hlink : some trO = some trC := hct4.symm.trans hC
        injection hlink with hlink
        refine ⟨trO, spA, spB2, hct4', hget4, ?_, ?_⟩
        · rw [hlink]
          exact hgetC
        · rw [hidA]
          exact hparC.trans hparB'
    | none =>
        obtain ⟨relR, -, -⟩ := runP_frame rest stB hwfB
        obtain ⟨trR, hctR, -, -, -, -, -, hposR, -⟩ := relR.2.2.2 trB hctB
        obtain ⟨spB2, hgetR, hshR⟩ := hposR _ spB1 hgetB
        have hrunS2 : runP (.seq (.spanOp nB kB aB bodyB) rest)
            { currentTrace := some (tr.add_span (mkSpan st tr.trace_id nA kA aA)),
              currentSpan := some st.nextId,
              clock := st.clock + 1,
              nextId := st.nextId + 1 } = runP rest stB := hrunS
        rcases hR : runP rest stB with ⟨oR, stR⟩
        rw [hR] at hctR hrunS2
        cases oR with
        | none =>
            have hrunP2 : runP (.spanOp nA kA aA
                (.seq (.spanOp nB kB aB bodyB) rest)) st =
                (none, stR.closeSpanOk st.nextId st.currentSpan) := by
              rw [hrunP, hrunS2]
            obtain ⟨trC, hC, hpC⟩ := closeSpanOk_idParent stR trR st.nextId
              st.currentSpan hctR
            obtain ⟨spB3, hgetC, hidC, hparC⟩ := hpC _ spB2 hgetR
            rw [hrunP2] at hct4
            have hlink : some trO = some trC := hct4.symm.trans hC
            injection hlink with hlink
            refine ⟨trO, spA, spB3, hct4', hget4, ?_, ?_⟩
            · rw [hlink]
              exact hgetC
            · rw [hidA]
              exact (hparC.trans hshR.2.1).trans hparB'
        | some e =>
            have hrunP2 : runP (.spanOp nA kA aA
                (.seq (.spanOp nB kB aB bodyB) rest)) st =
                (some e, stR.closeSpanErr st.nextId st.currentSpan e) := by
              rw [hrunP, hrunS2]
            obtain ⟨trC, hC, hpC⟩ := closeSpanErr_idParent stR trR st.nextId
              st.currentSpan e hctR
            obtain ⟨spB3, hgetC, hidC, hparC⟩ := hpC _ spB2 hgetR
            rw [hrunP2] at hct4
            have hlink : some trO = some trC := hct4.symm.trans hC
            injection hlink with hlink
            refine ⟨trO, spA, spB3, hct4', hget4, ?_, ?_⟩
            · rw [hlink]
              exact hgetC
            · rw [hidA]
              exact (hparC.trans hshR.2.1).trans hparB'

/-- Witness for C5 on a freshly-started trace: span "B" opened first inside
span "A" is parented on "A", and the ambient span is restored after "A"
exits, for any body. -/
theorem nested_span_parent_restore_witness :
    TracerWF (TracerState.init.start_trace []).2 ∧
    ((TracerState.init.start_trace []).2).currentTrace =
      some { trace_id := 0, spans := [], created_at := 0,
             service_name := "detective-agent", attributes := [] } ∧
    (∀ body : TProg,
      ((runP (TProg.spanOp "A" SpanKind.internal [] body)
          (TracerState.init.start_trace []).2).2).currentSpan =
        ((TracerState.init.start_trace []).2).currentSpan) ∧
    ∃ tr' spA spB,
      ((runP (TProg.spanOp "A" SpanKind.internal []
          (TProg.seq (TProg.spanOp "B" SpanKind.internal [] TProg.skip)
            TProg.skip))
          (TracerState.init.start_trace []).2).2).currentTrace = some tr' ∧
      tr'.spans.get? 0 = some spA ∧
      tr'.spans.get? 1 = some spB ∧
      spB.parent_span_id = some spA.span_id := by
  have hwfp : TracerWF (TracerState.init.start_trace []).2 := by
    intro sp hsp
    simp [spansOf, TracerState.init, TracerState.start_trace,
      TracerState.now] at hsp
  have h := nested_span_parent_restore (TracerState.init.start_trace []).2
    { trace_id := 0, spans := [], created_at := 0,
      service_name := "detective-agent", attributes := [] }
    "A" "B" SpanKind.internal SpanKind.internal [] []
    TProg.skip TProg.skip hwfp rfl
  exact ⟨hwfp, rfl, h.1, h.2⟩

/-! ## Agent-level lemmas

The loop proofs thread one invariant: the trace started at the top of
`send_message` stays current (same `trace_id`) through every span
operation of the turn.  `tid` projects that invariant. -/

/-- The id of the current trace, if any. -/
def tid (t : TracerState) : Option Nat :=
  t.currentTrace.map (fun tr => tr.trace_id)

/-- Annotating a span does not change which trace is current. -/
theorem tid_setSpanAttr (t : TracerState) (sid : Nat) (k : String)
    (v : JValue) : tid (t.setSpanAttr sid k v) = tid t := by
  rcases h : t.currentTrace with _ | tr <;>
    simp [tid, TracerState.setSpanAttr, TracerState.mapSpans, h]

/-- Ending a span does not change which trace is current. -/
theorem tid_endSpan (t : TracerState) (sid : Nat) (status : SpanStatus) :
    tid (t.endSpan sid status) = tid t := by
  rcases h : t.currentTrace with _ | tr <;>
    simp [tid, TracerState.endSpan, TracerState.now, TracerState.mapSpans, h]

/-- Closing a span normally does not change which trace is current. -/
theorem tid_closeSpanOk (t : TracerState) (sid : Nat) (token : Option Nat) :
    tid (t.closeSpanOk sid token) = tid t := by
  show tid { t.endSpan sid .ok with currentSpan := token } = tid t
  rw [show tid { t.endSpan sid .ok with currentSpan := token } =
    tid (t.endSpan sid .ok) from rfl, tid_endSpan]

/-- Closing a span exceptionally does not change which trace is current. -/
theorem tid_closeSpanErr (t : TracerState) (sid : Nat) (token : Option Nat)
    (e : PyExn) : tid (t.closeSpanErr sid token e) = tid t := by
  show tid { ((t.setSpanAttr sid "error.type" (.str e.ty)).setSpanAttr sid
    "error.message" (.str e.msg)).endSpan sid .error with currentSpan := token } = tid t
  rw [show tid { ((t.setSpanAttr sid "error.type" (.str e.ty)).setSpanAttr sid
      "error.message" (.str e.msg)).endSpan sid .error with currentSpan := token } =
    tid (((t.setSpanAttr sid "error.type" (.str e.ty)).setSpanAttr sid
      "error.message" (.str e.msg)).endSpan sid .error) from rfl]
  rw [tid_endSpan, tid_setSpanAttr, tid_setSpanAttr]

/-- Opening a span through the agent on a live trace: explicit result. -/
theorem agent_openSpan_spec (st : AgentState) (tr : Trace) (name : String)
    (kind : SpanKind) (attrs : List (String × JValue))
    (htr : st.tracer.currentTrace = some tr) :
    st.openSpan name kind attrs =
      .ok ((st.tracer.nextId, st.tracer.currentSpan),
        { st with tracer :=
          { currentTrace := some (tr.add_span (mkSpan st.tracer tr.trace_id name kind attrs)),
            currentSpan := some st.tracer.nextId,
            clock := st.tracer.clock + 1,
            nextId := st.tracer.nextId + 1 } }) := by
  rw [AgentState.openSpan, openSpan_spec st.tracer tr name kind attrs htr]

/-- A live trace id survives the agent's span-open step. -/
theorem tid_agent_open (st : AgentState) (tr : Trace)
    (htr : st.tracer.currentTrace = some tr) (name : String) (kind : SpanKind)
    (attrs : List (String × JValue)) :
    tid ({ currentTrace := some (tr.add_span (mkSpan st.tracer tr.trace_id name kind attrs)),
           currentSpan := some st.tracer.nextId,
           clock := st.tracer.clock + 1,
           nextId := st.tracer.nextId + 1 } : TracerState) = some tr.trace_id := by
  simp [tid, Trace.add_span]

/-- One provider call inside its `llm_call` span: it succeeds on a live
trace, calls the provider on system prompt plus full history, bumps the
call counter, and touches neither the conversation, the store, the
filesystem, nor which trace is current. -/
theorem llmCall_spec (env : AgentEnv) (tools : Option (List JValue))
    (iteration : Nat) (st : AgentState) (tr : Trace)
    (htr : st.tracer.currentTrace = some tr) :
    ∃ st', llmCall env tools iteration st =
        .ok (env.provider st.calls
          (Message.mk .system env.system_prompt {} :: st.messages) tools, st') ∧
      st'.messages = st.messages ∧ st'.saves = st.saves ∧ st'.fs = st.fs ∧
      st'.calls = st.calls + 1 ∧ tid st'.tracer = some tr.trace_id := by
  rw [llmCall, agent_openSpan_spec st tr _ _ _ htr]
  refine ⟨_, rfl, rfl, rfl, rfl, rfl, ?_⟩
  simp only [AgentState.onTracer]
  simp only [tid_closeSpanOk, tid_setSpanAttr]
  simp [tid, Trace.add_span]

/-- One tool-call dispatch step: on a live trace it always completes
normally (the per-call `except Exception` absorbs parse, lookup and
handler failures into the result string), appends exactly the tool-result
message for this call, and touches nothing else. -/
theorem execOneToolCall_spec (env : AgentEnv) (tc : ToolCall)
    (st : AgentState) (tr : Trace)
    (htr : st.tracer.currentTrace = some tr) :
    ∃ st', execOneToolCall env tc st = (.ok (), st') ∧
      st'.messages = st.messages ++ [toolResultMsg env tc] ∧
      st'.saves = st.saves ∧ st'.fs = st.fs ∧ st'.calls = st.calls ∧
      tid st'.tracer = some tr.trace_id := by
  rw [execOneToolCall, agent_openSpan_spec st tr _ _ _ htr]
  rcases hts : toolResultStr env tc with ⟨rs, orr⟩
  rcases orr with _ | ⟨args, e⟩ <;>
    rcases hjl : env.jsonLoads tc.function.arguments with e' | args' <;>
      simp only [hts, hjl] <;>
        refine ⟨_, rfl, rfl, rfl, rfl, rfl, ?_⟩ <;>
          simp only [AgentState.onTracer] <;>
            simp only [tid_closeSpanOk, tid_setSpanAttr] <;>
              simp [tid, Trace.add_span]

/-- Dispatching a batch of tool calls on a live trace: always completes
normally, appends exactly one tool-result message per call in call order,
and touches neither the store, the filesystem, the call counter, nor which
trace is current. -/
theorem execToolCalls_spec (env : AgentEnv) :
    ∀ (tcs : List ToolCall) (st : AgentState) (tr : Trace),
      st.tracer.currentTrace = some tr →
      ∃ st', execToolCalls env tcs st = (.ok (), st') ∧
        st'.messages = st.messages ++ tcs.map (toolResultMsg env) ∧
        st'.saves = st.saves ∧ st'.fs = st.fs ∧ st'.calls = st.calls ∧
        tid st'.tracer = some tr.trace_id := by
  intro tcs
  induction tcs with
  | nil =>
      intro st tr htr
      exact ⟨st, rfl, by simp, rfl, rfl, rfl, by simp [tid, htr]⟩
  | cons tc rest ih =>
      intro st tr htr
      obtain ⟨st1, h1, hm1, hs1, hf1, hc1, ht1⟩ :=
        execOneToolCall_spec env tc st tr htr
      obtain ⟨tr1, htr1, hid1⟩ :
          ∃ tr1, st1.tracer.currentTrace = some tr1 ∧
            tr1.trace_id = tr.trace_id := by
        rcases h : st1.tracer.currentTrace with _ | tr1
        · rw [tid, h] at ht1
          simp at ht1
        · rw [tid, h] at ht1
          refine ⟨tr1, rfl, ?_⟩
          simpa using ht1
      obtain ⟨st2, h2, hm2, hs2, hf2, hc2, ht2⟩ := ih st1 tr1 htr1
      refine ⟨st2, ?_, ?_, ?_, ?_, ?_, ?_⟩
      · simp only [execToolCalls, h1, h2]
      · rw [hm2, hm1]
        simp
      · rw [hs2, hs1]
      · rw [hf2, hf1]
      · rw [hc2, hc1]
      · rw [ht2, hid1]

/-- A state whose trace id is known has a live trace with that id. -/
theorem tid_some_trace (t : TracerState) (τ : Nat) (h : tid t = some τ) :
    ∃ tr, t.currentTrace = some tr ∧ tr.trace_id = τ := by
  rcases hc : t.currentTrace with _ | tr
  · rw [tid, hc] at h
    simp at h
  · rw [tid, hc] at h
    exact ⟨tr, rfl, by simpa using h⟩

/-- When every provider reply requests at least one tool call, the loop
spends all its fuel: it returns `none` (exhaustion), performs exactly one
provider call per iteration, never persists the conversation, never
exports, and keeps the same trace current. -/
theorem sendLoop_exhaust (env : AgentEnv) (tools : Option (List JValue))
    (rootSid : Nat)
    (hprov : ∀ i msgs t, getToolCalls (env.provider i msgs t) ≠ []) :
    ∀ (fuel iteration : Nat) (st : AgentState) (tr : Trace),
      st.tracer.currentTrace = some tr →
      ∃ st', sendLoop env tools rootSid fuel iteration st = (.ok none, st') ∧
        st'.saves = st.saves ∧ st'.fs = st.fs ∧
        st'.calls = st.calls + fuel ∧ tid st'.tracer = some tr.trace_id := by
  intro fuel
  induction fuel with
  | zero =>
      intro iteration st tr htr
      exact ⟨st, rfl, rfl, rfl, rfl, by simp [tid, htr]⟩
  | succ fuel ih =>
      intro iteration st tr htr
      obtain ⟨st1, h1, hm1, hs1, hf1, hc1, ht1⟩ :=
        llmCall_spec env tools iteration st tr htr
      have hempty : (getToolCalls (env.provider st.calls
          (Message.mk Role.system env.system_prompt {} :: st.messages)
          tools)).isEmpty = false := by
        rcases hcase : getToolCalls (env.provider st.calls
            (Message.mk Role.system env.system_prompt {} :: st.messages)
            tools) with _ | ⟨a, b⟩
        · exact absurd hcase (hprov _ _ _)
        · rfl
      obtain ⟨tr1, htr1, hid1⟩ := tid_some_trace st1.tracer tr.trace_id ht1
      have htr1' : ({ st1 with messages := st1.messages ++
          [env.provider st.calls
            (Message.mk Role.system env.system_prompt {} :: st.messages)
            tools] } : AgentState).tracer.currentTrace = some tr1 := htr1
      obtain ⟨st2, h2, hm2, hs2, hf2, hc2, ht2⟩ := execToolCalls_spec env
        (getToolCalls (env.provider st.calls
          (Message.mk Role.system env.system_prompt {} :: st.messages) tools))
        { st1 with messages := st1.messages ++
          [env.provider st.calls
            (Message.mk Role.system env.system_prompt {} :: st.messages)
            tools] } tr1 htr1'
      obtain ⟨tr2, htr2, hid2⟩ := tid_some_trace st2.tracer tr1.trace_id ht2
      obtain ⟨st3, h3, hs3, hf3, hc3, ht3⟩ := ih (iteration + 1) st2 tr2 htr2
      refine ⟨st3, ?_, ?_, ?_, ?_, ?_⟩
      · simp only [sendLoop, h1, hempty, h2, h3, Bool.false_eq_true,
          if_false]
      · rw [hs3]
        have hs2' : st2.saves = st1.saves := hs2
        rw [hs2', hs1]
      · rw [hf3]
        have hf2' : st2.fs = st1.fs := hf2
        rw [hf2', hf1]
      · rw [hc3]
        have hc2' : st2.calls = st1.calls := hc2
        rw [hc2', hc1]
        omega
      · rw [ht3, hid2, hid1]

/-- When the provider's next reply carries no tool calls, the loop (with at
least one iteration of fuel left) terminates immediately with that reply's
content, appending the reply and persisting the conversation exactly once. -/
theorem sendLoop_final (env : AgentEnv) (tools : Option (List JValue))
    (rootSid : Nat) (fuel iteration : Nat) (st : AgentState) (tr : Trace)
    (htr : st.tracer.currentTrace = some tr)
    (hfree : getToolCalls (env.provider st.calls
      (Message.mk Role.system env.system_prompt {} :: st.messages) tools) = []) :
    ∃ st', sendLoop env tools rootSid (fuel + 1) iteration st =
        (.ok (some (env.provider st.calls
          (Message.mk Role.system env.system_prompt {} :: st.messages)
          tools).content), st') ∧
      st'.saves = st.saves ++ [st'.messages] ∧ st'.fs = st.fs ∧
      tid st'.tracer = some tr.trace_id := by
  obtain ⟨st1, h1, hm1, hs1, hf1, hc1, ht1⟩ :=
    llmCall_spec env tools iteration st tr htr
  have hempty : (getToolCalls (env.provider st.calls
      (Message.mk Role.system env.system_prompt {} :: st.messages)
      tools)).isEmpty = true := by
    rw [hfree]
    rfl
  have h1' : (sendLoop env tools rootSid (fuel + 1) iteration st).1 =
      .ok (some (env.provider st.calls
        (Message.mk Role.system env.system_prompt {} :: st.messages)
        tools).content) := by
    simp only [sendLoop, h1, hempty, if_true]
  have h2' : (sendLoop env tools rootSid (fuel + 1) iteration st).2.saves =
      st.saves ++ [(sendLoop env tools rootSid (fuel + 1) iteration st).2.messages] := by
    simp only [sendLoop, h1, hempty, if_true, AgentState.onTracer]
    rw [hs1]
  have h3' : (sendLoop env tools rootSid (fuel + 1) iteration st).2.fs =
      st.fs := by
    simp only [sendLoop, h1, hempty, if_true, AgentState.onTracer]
    exact hf1
  have h4' : tid (sendLoop env tools rootSid (fuel + 1) iteration st).2.tracer =
      some tr.trace_id := by
    simp only [sendLoop, h1, hempty, if_true, AgentState.onTracer]
    simp only [tid_setSpanAttr]
    exact ht1
  exact ⟨(sendLoop env tools rootSid (fuel + 1) iteration st).2,
    Prod.ext h1' rfl, h2', h3', h4'⟩

/-- With a provider that always requests tool calls, the body of
`send_message` runs the loop to exhaustion: it produces the fixed sentinel
message, persists the conversation exactly once (the persisted snapshot
being the final message list), performs `maxIterations` provider calls,
exports nothing itself, and leaves the turn's trace current. -/
theorem sendBody_exhaust (env : AgentEnv) (content : String)
    (st : AgentState) (tr : Trace)
    (hprov : ∀ i msgs t, getToolCalls (env.provider i msgs t) ≠ [])
    (htr : st.tracer.currentTrace = some tr) :
    (sendBody env content st).1 = .ok exhaustionMessage ∧
    (sendBody env content st).2.saves =
      st.saves ++ [(sendBody env content st).2.messages] ∧
    (sendBody env content st).2.fs = st.fs ∧
    (sendBody env content st).2.calls = st.calls + maxIterations ∧
    tid (sendBody env content st).2.tracer = some tr.trace_id := by
  have hopen := agent_openSpan_spec st tr "send_message" SpanKind.internal
    [("message_length", JValue.num content.length)] htr
  cases hreg : env.registry.get_tools.isEmpty with
  | true =>
      have htools : (if env.registry.get_tools.isEmpty then none
          else some env.registry.format_for_openai) =
          (none : Option (List JValue)) := by
        rw [hreg]
        exact if_pos rfl
      obtain ⟨st2, hloop, hs2, hf2, hc2, ht2⟩ := sendLoop_exhaust env none
        st.tracer.nextId hprov maxIterations 0
        { st with
          messages := st.messages ++ [Message.mk Role.user content {}],
          tracer :=
            { currentTrace := some (tr.add_span (mkSpan st.tracer tr.trace_id
                "send_message" SpanKind.internal
                [("message_length", JValue.num content.length)])),
              currentSpan := some st.tracer.nextId,
              clock := st.tracer.clock + 1,
              nextId := st.tracer.nextId + 1 } }
        (tr.add_span (mkSpan st.tracer tr.trace_id "send_message"
          SpanKind.internal [("message_length", JValue.num content.length)]))
        rfl
      refine ⟨?_, ?_, ?_, ?_, ?_⟩
      · simp only [sendBody, hopen, htools, hloop, AgentState.onTracer]
      · simp only [sendBody, hopen, htools, hloop, AgentState.onTracer]
        have hs2' : st2.saves = st.saves := hs2
        rw [hs2']
      · simp only [sendBody, hopen, htools, hloop, AgentState.onTracer]
        exact hf2
      · simp only [sendBody, hopen, htools, hloop, AgentState.onTracer]
        exact hc2
      · simp only [sendBody, hopen, htools, hloop, AgentState.onTracer]
        simp only [tid_closeSpanOk, tid_setSpanAttr]
        exact ht2
  | false =>
      have htools : (if env.registry.get_tools.isEmpty then none
          else some env.registry.format_for_openai) =
          some env.registry.format_for_openai := by
        rw [hreg]
        exact if_neg (by simp)
      have htS : tid
          (({ currentTrace := some (tr.add_span (mkSpan st.tracer tr.trace_id
                "send_message" SpanKind.internal
                [("message_length", JValue.num content.length)])),
              currentSpan := some st.tracer.nextId,
              clock := st.tracer.clock + 1,
              nextId := st.tracer.nextId + 1 } : TracerState).setSpanAttr
            st.tracer.nextId "tools_count"
            (JValue.num env.registry.format_for_openai.length)) =
          some tr.trace_id := by
        rw [tid_setSpanAttr]
        simp [tid, Trace.add_span]
      obtain ⟨trS, htrS, hidS⟩ := tid_some_trace _ _ htS
      obtain ⟨st2, hloop, hs2, hf2, hc2, ht2⟩ := sendLoop_exhaust env
        (some env.registry.format_for_openai)
        st.tracer.nextId hprov maxIterations 0
        { st with
          messages := st.messages ++ [Message.mk Role.user content {}],
          tracer :=
            ({ currentTrace := some (tr.add_span (mkSpan st.tracer tr.trace_id
                  "send_message" SpanKind.internal
                  [("message_length", JValue.num content.length)])),
               currentSpan := some st.tracer.nextId,
               clock := st.tracer.clock + 1,
               nextId := st.tracer.nextId + 1 } : TracerState).setSpanAttr
              st.tracer.nextId "tools_count"
              (JValue.num env.registry.format_for_openai.length) }
        trS htrS
      rw [hidS] at ht2
      refine ⟨?_, ?_, ?_, ?_, ?_⟩
      · simp only [sendBody, hopen, htools, hloop, AgentState.onTracer]
      · simp only [sendBody, hopen, htools, hloop, AgentState.onTracer]
        have hs2' : st2.saves = st.saves := hs2
        rw [hs2']
      · simp only [sendBody, hopen, htools, hloop, AgentState.onTracer]
        exact hf2
      · simp only [sendBody, hopen, htools, hloop, AgentState.onTracer]
        exact hc2
      · simp only [sendBody, hopen, htools, hloop, AgentState.onTracer]
        simp only [tid_closeSpanOk, tid_setSpanAttr]
        exact ht2

/-- The concrete exporter wrapped for the agent: `FileTraceExporter.export`
as an I/O action that (in the absence of injected I/O failure) always
succeeds. -/
def fileExporterE (dir : String) :
    Trace → ExpState → Except PyExn (ExpState × String) :=
  fun tr fs => .ok (FileTraceExporter.export dir fs tr)

/-- With a provider that never requests tool calls, the body of
`send_message` computes a final text on the first iteration and leaves the
turn's trace current. -/
theorem sendBody_final (env : AgentEnv) (content : String) (st : AgentState)
    (tr : Trace)
    (hfree : ∀ i msgs t, getToolCalls (env.provider i msgs t) = [])
    (htr : st.tracer.currentTrace = some tr) :
    ∃ text, (sendBody env content st).1 = .ok text ∧
      tid (sendBody env content st).2.tracer = some tr.trace_id := by
  have hopen := agent_openSpan_spec st tr "send_message" SpanKind.internal
    [("message_length", JValue.num content.length)] htr
  have hml : maxIterations = 9 + 1 := rfl
  cases hreg : env.registry.get_tools.isEmpty with
  | true =>
      have htools : (if env.registry.get_tools.isEmpty then none
          else some env.registry.format_for_openai) =
          (none : Option (List JValue)) := by
        rw [hreg]
        exact if_pos rfl
      obtain ⟨st2, hloop, hs2, hf2, ht2⟩ := sendLoop_final env none
        st.tracer.nextId 9 0
        { st with
          messages := st.messages ++ [Message.mk Role.user content {}],
          tracer :=
            { currentTrace := some (tr.add_span (mkSpan st.tracer tr.trace_id
                "send_message" SpanKind.internal
                [("message_length", JValue.num content.length)])),
              currentSpan := some st.tracer.nextId,
              clock := st.tracer.clock + 1,
              nextId := st.tracer.nextId + 1 } }
        (tr.add_span (mkSpan st.tracer tr.trace_id "send_message"
          SpanKind.internal [("message_length", JValue.num content.length)]))
        rfl (hfree _ _ _)
      refine ⟨(env.provider st.calls (Message.mk Role.system env.system_prompt {} :: (st.messages ++ [Message.mk Role.user content {}])) none).content, ?_, ?_⟩
      · simp only [sendBody, hopen, htools, hml, hloop, AgentState.onTracer]
      · simp only [sendBody, hopen, htools, hml, hloop, AgentState.onTracer]
        simp only [tid_closeSpanOk]
        exact ht2
  | false =>
      have htools : (if env.registry.get_tools.isEmpty then none
          else some env.registry.format_for_openai) =
          some env.registry.format_for_openai := by
        rw [hreg]
        exact if_neg (by simp)
      have htS : tid
          (({ currentTrace := some (tr.add_span (mkSpan st.tracer tr.trace_id
                "send_message" SpanKind.internal
                [("message_length", JValue.num content.length)])),
              currentSpan := some st.tracer.nextId,
              clock := st.tracer.clock + 1,
              nextId := st.tracer.nextId + 1 } : TracerState).setSpanAttr
            st.tracer.nextId "tools_count"
            (JValue.num env.registry.format_for_openai.length)) =
          some tr.trace_id := by
        rw [tid_setSpanAttr]
        simp [tid, Trace.add_span]
      obtain ⟨trS, htrS, hidS⟩ := tid_some_trace _ _ htS
      obtain ⟨st2, hloop, hs2, hf2, ht2⟩ := sendLoop_final env
        (some env.registry.format_for_openai)
        st.tracer.nextId 9 0
        { st with
          messages := st.messages ++ [Message.mk Role.user content {}],
          tracer :=
            ({ currentTrace := some (tr.add_span (mkSpan st.tracer tr.trace_id
                  "send_message" SpanKind.internal
                  [("message_length", JValue.num content.length)])),
               currentSpan := some st.tracer.nextId,
               clock := st.tracer.clock + 1,
               nextId := st.tracer.nextId + 1 } : TracerState).setSpanAttr
              st.tracer.nextId "tools_count"
              (JValue.num env.registry.format_for_openai.length) }
        trS htrS (hfree _ _ _)
      rw [hidS] at ht2
      refine ⟨(env.provider st.calls (Message.mk Role.system env.system_prompt {} :: (st.messages ++ [Message.mk Role.user content {}])) (some env.registry.format_for_openai)).content, ?_, ?_⟩
      · simp only [sendBody, hopen, htools, hml, hloop, AgentState.onTracer]
      · simp only [sendBody, hopen, htools, hml, hloop, AgentState.onTracer]
        simp only [tid_closeSpanOk]
        exact ht2

/-- C1: for every provider that on each call returns a reply carrying at
least one tool-call request, `send_message` terminates after exactly
`maxIterations` (10) provider calls, still persists the conversation
(one snapshot, equal to the final message list), still exports the turn's
trace to the trace file store, and returns the fixed sentinel failure
message rather than raising. -/
theorem send_message_exhaustion (env : AgentEnv) (content : String)
    (st : AgentState) (dir : String)
    (hprov : ∀ i msgs t, getToolCalls (env.provider i msgs t) ≠ [])
    (hexp : env.exporter = fileExporterE dir) :
    (send_message env content st).1 = .ok exhaustionMessage ∧
    (send_message env content st).2.calls = st.calls + maxIterations ∧
    (send_message env content st).2.saves =
      st.saves ++ [(send_message env content st).2.messages] ∧
    ∃ trF, trF.trace_id = st.tracer.nextId ∧
      (send_message env content st).2.fs =
        (FileTraceExporter.tracePath dir trF,
          FileTraceExporter.serialize_trace trF) :: st.fs := by
  obtain ⟨hres, hsaves, hfs, hcalls, htid⟩ := sendBody_exhaust env content
    { st with tracer :=
      { currentTrace := some
          { trace_id := st.tracer.nextId, spans := [],
            created_at := st.tracer.clock,
            service_name := "detective-agent",
            attributes := [("user_message", JValue.str (content.take 100))] },
        currentSpan := st.tracer.currentSpan,
        clock := st.tracer.clock + 1,
        nextId := st.tracer.nextId + 1 } }
    { trace_id := st.tracer.nextId, spans := [],
      created_at := st.tracer.clock,
      service_name := "detective-agent",
      attributes := [("user_message", JValue.str (content.take 100))] }
    hprov rfl
  rcases hbody : sendBody env content
    { st with tracer :=
      { currentTrace := some
          { trace_id := st.tracer.nextId, spans := [],
            created_at := st.tracer.clock,
            service_name := "detective-agent",
            attributes := [("user_message", JValue.str (content.take 100))] },
        currentSpan := st.tracer.currentSpan,
        clock := st.tracer.clock + 1,
        nextId := st.tracer.nextId + 1 } } with ⟨res, st2⟩
  rw [hbody] at hres hsaves hfs hcalls htid
  have hres' : res = .ok exhaustionMessage := hres
  subst hres'
  obtain ⟨trF, htrF, hidF⟩ := tid_some_trace st2.tracer _ htid
  refine ⟨?_, ?_, ?_, trF, hidF, ?_⟩
  · simp only [send_message, TracerState.start_trace, TracerState.now, hbody,
      TracerState.end_trace, htrF, hexp, fileExporterE, FileTraceExporter.export]
  · simp only [send_message, TracerState.start_trace, TracerState.now, hbody,
      TracerState.end_trace, htrF, hexp, fileExporterE, FileTraceExporter.export]
    exact hcalls
  · simp only [send_message, TracerState.start_trace, TracerState.now, hbody,
      TracerState.end_trace, htrF, hexp, fileExporterE, FileTraceExporter.export]
    exact hsaves
  · simp only [send_message, TracerState.start_trace, TracerState.now, hbody,
      TracerState.end_trace, htrF, hexp, fileExporterE, FileTraceExporter.export]
    have hfs' : st2.fs = st.fs := hfs
    rw [hfs']

/-- A concrete tool-call request with empty JSON arguments. -/
def demoToolCall : ToolCall :=
  { id := "call1", function := { name := "echo", arguments := "\x7b\x7d" } }

/-- A provider stub that always requests one tool call. -/
def demoLoopProvider : Nat → List Message → Option (List JValue) → Message :=
  fun _ _ _ =>
    { role := Role.assistant, content := "",
      metadata := { tool_calls := some [demoToolCall] } }

/-- An agent environment whose provider always requests a tool call. -/
def demoEnvC1 : AgentEnv :=
  { provider := demoLoopProvider,
    jsonLoads := fun _ => .ok (JValue.obj []),
    registry := { tools := [] },
    exporter := fileExporterE "data/traces",
    system_prompt := "sys", model := "m" }

/-- Witness for C1 at a concrete always-tool-calling provider: ten provider
calls, the sentinel result, one persisted snapshot. -/
theorem send_message_exhaustion_witness :
    (∀ i msgs t, getToolCalls (demoEnvC1.provider i msgs t) ≠ []) ∧
    demoEnvC1.exporter = fileExporterE "data/traces" ∧
    (send_message demoEnvC1 "go" AgentState.init).1 = .ok exhaustionMessage ∧
    (send_message demoEnvC1 "go" AgentState.init).2.calls =
      AgentState.init.calls + maxIterations := by
  have hp : ∀ i msgs t, getToolCalls (demoEnvC1.provider i msgs t) ≠ [] := by
    intro i m t
    simp [demoEnvC1, demoLoopProvider, getToolCalls]
  have h := send_message_exhaustion demoEnvC1 "go" AgentState.init
    "data/traces" hp rfl
  exact ⟨hp, rfl, h.1, h.2.1⟩

/-- C2 as amended: an exception raised by the trace-export step in the
`finally` block replaces the turn's outcome -- even when the provider
produced a final answer and the body computed its result, `send_message`
raises the export exception instead of returning the answer. -/
theorem send_message_export_failure (env : AgentEnv) (content : String)
    (st : AgentState) (e : PyExn)
    (hfree : ∀ i msgs t, getToolCalls (env.provider i msgs t) = [])
    (hexp : ∀ t fs', env.exporter t fs' = .error e) :
    (send_message env content st).1 = .error e := by
  obtain ⟨text, hres, htid⟩ := sendBody_final env content
    { st with tracer :=
      { currentTrace := some
          { trace_id := st.tracer.nextId, spans := [],
            created_at := st.tracer.clock,
            service_name := "detective-agent",
            attributes := [("user_message", JValue.str (content.take 100))] },
        currentSpan := st.tracer.currentSpan,
        clock := st.tracer.clock + 1,
        nextId := st.tracer.nextId + 1 } }
    { trace_id := st.tracer.nextId, spans := [],
      created_at := st.tracer.clock,
      service_name := "detective-agent",
      attributes := [("user_message", JValue.str (content.take 100))] }
    hfree rfl
  rcases hbody : sendBody env content
    { st with tracer :=
      { currentTrace := some
          { trace_id := st.tracer.nextId, spans := [],
            created_at := st.tracer.clock,
            service_name := "detective-agent",
            attributes := [("user_message", JValue.str (content.take 100))] },
        currentSpan := st.tracer.currentSpan,
        clock := st.tracer.clock + 1,
        nextId := st.tracer.nextId + 1 } } with ⟨res, st2⟩
  rw [hbody] at hres htid
  obtain ⟨trF, htrF, -⟩ := tid_some_trace st2.tracer _ htid
  simp only [send_message, TracerState.start_trace, TracerState.now, hbody,
    TracerState.end_trace, htrF, hexp]

/-- An I/O failure raised by the export step. -/
def demoExnX : PyExn := .mk "OSError" "disk full" none

/-- A provider stub that always returns the final answer "done". -/
def demoFinalProvider : Nat → List Message → Option (List JValue) → Message :=
  fun _ _ _ => { role := Role.assistant, content := "done", metadata := {} }

/-- An environment whose provider answers immediately but whose exporter
always raises. -/
def demoEnvC2 : AgentEnv :=
  { provider := demoFinalProvider,
    jsonLoads := fun _ => .ok (JValue.obj []),
    registry := { tools := [] },
    exporter := fun _ _ => .error demoExnX,
    system_prompt := "sys", model := "m" }

set_option maxHeartbeats 1000000 in
/-- Counterexample to C2: the body of the turn computed the final answer
"done", yet because `Exporter.export` raises in the `finally` block,
`send_message` raises the export exception instead of returning the
computed answer -- the export failure does suppress and replace the
turn's result. -/
theorem export_failure_counterexample :
    (sendBody demoEnvC2 "hi"
      { AgentState.init with tracer :=
        (TracerState.init.start_trace
          [("user_message", JValue.str (String.take "hi" 100))]).2 }).1 =
      .ok "done" ∧
    (send_message demoEnvC2 "hi" AgentState.init).1 = .error demoExnX ∧
    (send_message demoEnvC2 "hi" AgentState.init).1 ≠ .ok "done" := by
  have h1 : (send_message demoEnvC2 "hi" AgentState.init).1 =
      .error demoExnX := rfl
  refine ⟨rfl, h1, ?_⟩
  rw [h1]
  simp

/-- Witness for the amended C2 at the concrete failing exporter. -/
theorem send_message_export_failure_witness :
    (∀ i msgs t, getToolCalls (demoEnvC2.provider i msgs t) = []) ∧
    (∀ t fs', demoEnvC2.exporter t fs' = .error demoExnX) ∧
    (send_message demoEnvC2 "hello" AgentState.init).1 = .error demoExnX := by
  have h1 : ∀ i msgs t, getToolCalls (demoEnvC2.provider i msgs t) = [] :=
    fun _ _ _ => rfl
  have h2 : ∀ t fs', demoEnvC2.exporter t fs' = .error demoExnX :=
    fun _ _ => rfl
  exact ⟨h1, h2, send_message_export_failure demoEnvC2 "hello"
    AgentState.init demoExnX h1 h2⟩

/-- C3: a provider reply carrying k tool-call requests yields exactly k
tool-role messages appended to the conversation, in the order the provider
listed the calls, each carrying its originating call id and tool name in
metadata, and each appended before the next call in the batch is started. -/
theorem tool_batch_messages (env : AgentEnv) (tcs : List ToolCall)
    (st : AgentState) (tr : Trace)
    (htr : st.tracer.currentTrace = some tr) :
    (∃ st', execToolCalls env tcs st = (.ok (), st') ∧
      st'.messages = st.messages ++ tcs.map (toolResultMsg env) ∧
      st'.messages.length = st.messages.length + tcs.length) ∧
    (∀ tc, (toolResultMsg env tc).role = Role.tool ∧
      (toolResultMsg env tc).metadata.tool_call_id = some tc.id ∧
      (toolResultMsg env tc).metadata.name = some tc.function.name) ∧
    ∀ tc rest,
      execToolCalls env (tc :: rest) st =
        execToolCalls env rest (execOneToolCall env tc st).2 ∧
      (execOneToolCall env tc st).2.messages =
        st.messages ++ [toolResultMsg env tc] := by
  refine ⟨?_, fun tc => ⟨rfl, rfl, rfl⟩, fun tc rest => ?_⟩
  · obtain ⟨st', h, hm, -, -, -, -⟩ := execToolCalls_spec env tcs st tr htr
    refine ⟨st', h, hm, ?_⟩
    rw [hm]
    simp
  · obtain ⟨st1, h1, hm1, -, -, -, -⟩ := execOneToolCall_spec env tc st tr htr
    constructor
    · simp only [execToolCalls, h1]
    · rw [h1]
      exact hm1

/-- Witness for C3 on a one-call batch from a freshly-started trace. -/
theorem tool_batch_messages_witness :
    ({ AgentState.init with
        tracer := (TracerState.init.start_trace []).2 } :
      AgentState).tracer.currentTrace =
      some { trace_id := 0, spans := [], created_at := 0,
             service_name := "detective-agent", attributes := [] } ∧
    ∃ st', execToolCalls demoEnvC1 [demoToolCall]
        { AgentState.init with
          tracer := (TracerState.init.start_trace []).2 } = (.ok (), st') ∧
      st'.messages = [toolResultMsg demoEnvC1 demoToolCall] := by
  obtain ⟨st', h, hm, -⟩ := (tool_batch_messages demoEnvC1 [demoToolCall]
    { AgentState.init with tracer := (TracerState.init.start_trace []).2 }
    { trace_id := 0, spans := [], created_at := 0,
      service_name := "detective-agent", attributes := [] } rfl).1
  refine ⟨rfl, st', h, ?_⟩
  rw [hm]
  simp [AgentState.init]

/-- A tool-call request for a tool that is not registered. -/
def demoMissingCall : ToolCall :=
  { id := "call1", function := { name := "missing", arguments := "\x7b\x7d" } }

/-- An environment whose provider first requests the unregistered tool
"missing" and then answers "done". -/
def demoEnvC7 : AgentEnv :=
  { provider := fun i _ _ =>
      if i = 0 then
        { role := Role.assistant, content := "",
          metadata := { tool_calls := some [demoMissingCall] } }
      else { role := Role.assistant, content := "done", metadata := {} },
    jsonLoads := fun _ => .ok (JValue.obj []),
    registry := { tools := [] },
    exporter := fileExporterE "data/traces",
    system_prompt := "sys", model := "m" }

set_option maxHeartbeats 1000000 in
/-- Counterexample to C7: the provider requests an unregistered tool, so
the dispatch step raises `ToolNotFoundError` internally -- yet the turn's
caller sees a normal final answer, and the error is absorbed into the
conversation as an error-bearing tool message, not surfaced. -/
theorem tool_error_absorbed_counterexample :
    toolsGet demoEnvC7.registry.tools "missing" = none ∧
    (send_message demoEnvC7 "q" AgentState.init).1 = .ok "done" ∧
    ((send_message demoEnvC7 "q" AgentState.init).2.messages.get? 2).map
      (fun m => (m.role, m.content, m.metadata.tool_call_id, m.metadata.name)) =
      some (Role.tool,
        jdumps (JValue.obj [("error", JValue.str "Tool not found: missing")]),
        some "call1", some "missing") :=
  ⟨rfl, rfl, rfl⟩

/-- C7 as amended: a `ToolNotFoundError` or `ToolExecutionError` raised
during the orchestrator's tool-dispatch step is caught by the per-call
exception handler, recorded as an error-bearing tool-result message
appended to the conversation, and the dispatch step completes normally:
the error is absorbed into the conversation, not surfaced to the turn's
caller. -/
theorem tool_dispatch_absorbs_errors (env : AgentEnv) (tc : ToolCall)
    (st : AgentState) (tr : Trace) (args : JValue) (e : PyExn)
    (htr : st.tracer.currentTrace = some tr)
    (hargs : env.jsonLoads tc.function.arguments = .ok args)
    (hexec : env.registry.execute tc.function.name args = .error e) :
    ∃ st', execOneToolCall env tc st = (.ok (), st') ∧
      st'.messages = st.messages ++ [toolResultMsg env tc] ∧
      (toolResultMsg env tc).role = Role.tool ∧
      (toolResultMsg env tc).content =
        jdumps (JValue.obj [("error", JValue.str e.msg)]) := by
  obtain ⟨st', h1, hm1, -, -, -, -⟩ := execOneToolCall_spec env tc st tr htr
  refine ⟨st', h1, hm1, rfl, ?_⟩
  simp [toolResultMsg, toolResultStr, hargs, hexec]

/-- Witness for the amended C7 at the concrete unregistered tool. -/
theorem tool_dispatch_absorbs_errors_witness :
    ({ AgentState.init with
        tracer := (TracerState.init.start_trace []).2 } :
      AgentState).tracer.currentTrace =
      some { trace_id := 0, spans := [], created_at := 0,
             service_name := "detective-agent", attributes := [] } ∧
    demoEnvC7.jsonLoads demoMissingCall.function.arguments =
      .ok (JValue.obj []) ∧
    demoEnvC7.registry.execute demoMissingCall.function.name (JValue.obj []) =
      .error (.mk "ToolNotFoundError" ("Tool not found: " ++ "missing") none) ∧
    ∃ st', execOneToolCall demoEnvC7 demoMissingCall
        { AgentState.init with
          tracer := (TracerState.init.start_trace []).2 } = (.ok (), st') ∧
      st'.messages = [] ++ [toolResultMsg demoEnvC7 demoMissingCall] := by
  obtain ⟨st', h1, hm1, -, -⟩ := tool_dispatch_absorbs_errors demoEnvC7
    demoMissingCall
    { AgentState.init with tracer := (TracerState.init.start_trace []).2 }
    { trace_id := 0, spans := [], created_at := 0,
      service_name := "detective-agent", attributes := [] }
    (JValue.obj [])
    (.mk "ToolNotFoundError" ("Tool not found: " ++ "missing") none)
    rfl rfl rfl
  exact ⟨rfl, rfl, rfl, st', h1, hm1⟩
